import Mathlib

/-!
Scene3DRenderer: foreground segmentation and frame iteration.

A shallow embedding of `src/controllers/Scene3DRenderer.cpp`.

* Images (`cv::Mat`, 8-bit) are a pair of dimensions with a pixel accessor
  `px row col`; only coordinates below `rows`/`cols` belong to the image.
* The OpenCV primitives the file calls (`absdiff`, `threshold`, `bitwise_and`,
  `bitwise_or`, `erode`, `dilate`, `medianBlur`, `getStructuringElement`, Otsu's
  threshold selection) are embedded with their documented 8-bit semantics.
* Frame indices and thresholds are C `int`s, embedded as `Int`; kernel radii are the
  trackbar-driven non-negative `int`s `m_erosion_size`, `m_dilation_size`, embedded as `Nat`.
  The sum `m_previous_frame + 1` is taken in the integers: frame indices range over -1 and
  the trackbar's `0 .. m_number_of_frames - 2`, far from the one value where the C
  expression would overflow.
* `double` arithmetic is embedded as exact rational arithmetic.
* The `Camera` class is external to the file: its decoder entry points and the colour
  conversion are parameters (`External`).
* The view members (`ViewState`) and the floor grid are embedded apart from the
  segmentation members; the loops of `createFloorGrid` carry a bound on the number of
  tests of their condition, so that a loop that never ends shows as `none`.
-/

namespace Scene3D

/-! ## Images -/

/-- Single-channel 8-bit image (`CV_8UC1`). -/
structure Mat where
  rows : Nat
  cols : Nat
  px : Nat → Nat → Nat

/-- Three-channel 8-bit pixel (`cv::Vec3b`). -/
structure Vec3b where
  c0 : Nat
  c1 : Nat
  c2 : Nat
deriving DecidableEq, Repr

/-- Three-channel 8-bit image (`CV_8UC3`). -/
structure Mat3 where
  rows : Nat
  cols : Nat
  px : Nat → Nat → Vec3b

/-- The three planes of a three-channel image (`std::vector<Mat>` of size 3). -/
structure Channels where
  c0 : Mat
  c1 : Mat
  c2 : Mat

/-- Test `cv::Mat::empty()`: no rows or no columns. -/
def Mat3.empty (m : Mat3) : Bool := m.rows == 0 || m.cols == 0

/-- Function `cv::split` on a three-channel image. -/
def split (m : Mat3) : Channels :=
  { c0 := { rows := m.rows, cols := m.cols, px := fun i j => (m.px i j).c0 }
    c1 := { rows := m.rows, cols := m.cols, px := fun i j => (m.px i j).c1 }
    c2 := { rows := m.rows, cols := m.cols, px := fun i j => (m.px i j).c2 } }

/-- Function `cv::merge` of three planes; the result has the size of the first plane. -/
def merge (c : Channels) : Mat3 :=
  { rows := c.c0.rows, cols := c.c0.cols
    px := fun i j => ⟨c.c0.px i j, c.c1.px i j, c.c2.px i j⟩ }

/-- Function `cv::cvtColor` with a per-pixel conversion (here `CV_BGR2HSV`, supplied by the
caller as `conv`); the size is preserved. -/
def cvtColor (conv : Vec3b → Vec3b) (m : Mat3) : Mat3 :=
  { rows := m.rows, cols := m.cols, px := fun i j => conv (m.px i j) }

/-- Failures that stop `processForeground`. -/
inductive Failure where
  /-- Failure of `assert(!camera->getFrame().empty())`. -/
  | emptyFrame
  /-- The OpenCV size check of `absdiff` on operands of different sizes. -/
  | sizeMismatch
deriving DecidableEq, Repr

/-- Absolute difference `|a - b|` of two 8-bit values. -/
def absdiffPx (a b : Nat) : Nat := if b ≤ a then a - b else b - a

/-- Function `cv::absdiff` on 8-bit planes: per-pixel `|a - b|`; operands of different
sizes are rejected. -/
def absdiff (a b : Mat) : Except Failure Mat :=
  if a.rows = b.rows ∧ a.cols = b.cols then
    .ok { rows := a.rows, cols := a.cols, px := fun i j => absdiffPx (a.px i j) (b.px i j) }
  else .error .sizeMismatch

/-- Function `cv::threshold(src, dst, thresh, 255, CV_THRESH_BINARY)` on an 8-bit plane:
`dst = src > thresh ? 255 : 0`. For 8-bit data OpenCV first floors the `double`
threshold, so `thresh` is that floored integer. -/
def threshold (src : Mat) (thresh : Int) : Mat :=
  { rows := src.rows, cols := src.cols
    px := fun i j => if thresh < (src.px i j : Int) then 255 else 0 }

/-- Function `cv::bitwise_and` on planes of one size. -/
def bitwise_and (a b : Mat) : Mat :=
  { rows := a.rows, cols := a.cols, px := fun i j => a.px i j &&& b.px i j }

/-- Function `cv::bitwise_or` on planes of one size. -/
def bitwise_or (a b : Mat) : Mat :=
  { rows := a.rows, cols := a.cols, px := fun i j => a.px i j ||| b.px i j }

/-! ## Morphology -/

/-- Structuring element: the `(x, y)` positions of its non-zero entries and its anchor. -/
structure Kernel where
  elems : List (Nat × Nat)
  anchor : Nat × Nat

/-- Call `getStructuringElement(MORPH_RECT, Size(w, h), anchor)`: every entry is set. -/
def getStructuringElementRect (w h : Nat) (anchor : Nat × Nat) : Kernel :=
  { elems := (List.range h).flatMap fun y => (List.range w).map fun x => (x, y)
    anchor := anchor }

/-- Call `getStructuringElement(MORPH_ELLIPSE, Size(5, 5), anchor)`: OpenCV fills row `y` on
the columns `2 - dx .. 2 + dx` with `dx = round(2 * sqrt((4 - (y-2)^2) / 4))`, which is
`0, 2, 2, 2, 0` for the five rows. -/
def getStructuringElementEllipse5 (anchor : Nat × Nat) : Kernel :=
  { elems := [(2, 0),
              (0, 1), (1, 1), (2, 1), (3, 1), (4, 1),
              (0, 2), (1, 2), (2, 2), (3, 2), (4, 2),
              (0, 3), (1, 3), (2, 3), (3, 3), (4, 3),
              (2, 4)]
    anchor := anchor }

/-- Source pixel under kernel entry `e` when the anchor sits on `(i, j)`, that is
`src(x + x' - anchor.x, y + y' - anchor.y)`, or `border` outside the image
(`BORDER_CONSTANT`). -/
def sample (src : Mat) (k : Kernel) (border : Nat) (i j : Nat) (e : Nat × Nat) : Nat :=
  if k.anchor.2 ≤ i + e.2 ∧ i + e.2 - k.anchor.2 < src.rows ∧
      k.anchor.1 ≤ j + e.1 ∧ j + e.1 - k.anchor.1 < src.cols then
    src.px (i + e.2 - k.anchor.2) (j + e.1 - k.anchor.1)
  else border

/-- Function `cv::erode` with the default border: minimum over the kernel, pixels outside
the image counting as 255. -/
def erode (src : Mat) (k : Kernel) : Mat :=
  { rows := src.rows, cols := src.cols
    px := fun i j => (k.elems.map (sample src k 255 i j)).foldl min 255 }

/-- Function `cv::dilate` with the default border: maximum over the kernel, pixels outside
the image counting as 0. -/
def dilate (src : Mat) (k : Kernel) : Mat :=
  { rows := src.rows, cols := src.cols
    px := fun i j => (k.elems.map (sample src k 0 i j)).foldl max 0 }

/-- Function `cv::medianBlur(src, dst, ksize)`: median of the `ksize x ksize` window centred
on the pixel, coordinates clamped to the image (`BORDER_REPLICATE`). -/
def medianBlur (src : Mat) (ksize : Nat) : Mat :=
  { rows := src.rows, cols := src.cols
    px := fun i j =>
      let window := (List.range ksize).flatMap fun a => (List.range ksize).map fun b =>
        src.px (min (i + a - ksize / 2) (src.rows - 1)) (min (j + b - ksize / 2) (src.cols - 1))
      (window.insertionSort (· ≤ ·)).getD (ksize * ksize / 2) 0 }

/-! ## Otsu's threshold selection -/

/-- Histogram entry `h[v]`: the number of pixels of the image with value `v`. -/
def hist (src : Mat) (v : Nat) : Nat :=
  ((List.range src.rows).map fun i =>
    ((List.range src.cols).filter fun j => src.px i j = v).length).sum

/-- Constant `FLT_EPSILON`, `2^-23`. -/
def FLT_EPSILON : ℚ := 1 / 8388608

/-- Loop state of `getThreshVal_Otsu_8u`. -/
structure OtsuState where
  mu1 : ℚ
  q1 : ℚ
  max_sigma : ℚ
  max_val : Nat

/-- One iteration `i` of the search loop of `getThreshVal_Otsu_8u`. -/
def otsuStep (src : Mat) (mu scale : ℚ) (st : OtsuState) (i : Nat) : OtsuState :=
  let p_i : ℚ := (hist src i : ℚ) * scale
  let mu1 : ℚ := st.mu1 * st.q1
  let q1 : ℚ := st.q1 + p_i
  let q2 : ℚ := 1 - q1
  if min q1 q2 < FLT_EPSILON ∨ max q1 q2 > 1 - FLT_EPSILON then
    { st with mu1 := mu1, q1 := q1 }
  else
    let mu1 : ℚ := (mu1 + (i : ℚ) * p_i) / q1
    let mu2 : ℚ := (mu - q1 * mu1) / q2
    let sigma : ℚ := q1 * q2 * (mu1 - mu2) * (mu1 - mu2)
    if sigma > st.max_sigma then
      { mu1 := mu1, q1 := q1, max_sigma := sigma, max_val := i }
    else
      { st with mu1 := mu1, q1 := q1 }

/-- The search loop of `getThreshVal_Otsu_8u` over the histogram levels still to visit;
it returns `max_val`. -/
def otsuLoop (src : Mat) (mu scale : ℚ) : List Nat → OtsuState → Nat
  | [], st => st.max_val
  | i :: rest, st => otsuLoop src mu scale rest (otsuStep src mu scale st i)

/-- OpenCV's `getThreshVal_Otsu_8u`, the threshold chosen under `CV_THRESH_OTSU`: the
histogram level that maximises the between-class variance. -/
@[irreducible]
def getThreshVal_Otsu_8u (src : Mat) : Nat :=
  let scale : ℚ := 1 / ((src.cols * src.rows : Nat) : ℚ)
  let mu : ℚ := ((List.range 256).map fun (i : Nat) => (i : ℚ) * (hist src i : ℚ)).sum * scale
  otsuLoop src mu scale (List.range 256) { mu1 := 0, q1 := 0, max_sigma := 0, max_val := 0 }

/-- Call `threshold(src, dst, 0, 255, CV_THRESH_BINARY | CV_THRESH_OTSU)`: the returned
threshold value and the thresholded image. -/
def thresholdOtsu (src : Mat) : Nat × Mat :=
  (getThreshVal_Otsu_8u src, threshold src (getThreshVal_Otsu_8u src))

/-! ## The adaptive difference score (`calculateDifferenceHSV`) -/

/-- The value `min(min(saturationA, saturationB) * abs(hueA - hueB)
+ abs(saturationA - saturationB), 1.0)` whose power `0.3` is `scaler`. -/
def scalerBase (pixelA pixelB : Vec3b) : ℚ :=
  let hueA : ℚ := (pixelA.c0 : ℚ) / 180
  let hueB : ℚ := (pixelB.c0 : ℚ) / 180
  let saturationA : ℚ := (pixelA.c1 : ℚ) / 255
  let saturationB : ℚ := (pixelB.c1 : ℚ) / 255
  min (min saturationA saturationB * |hueA - hueB| + |saturationA - saturationB|) 1

/-- The sum `pow(difference[2], 2) + pow(difference[1], 2) + pow(difference[0], 2)` with
`difference = pixelA - pixelB` taken in `Vec3i`. -/
def squaredDistance (pixelA pixelB : Vec3b) : Nat :=
  (((pixelA.c2 : Int) - pixelB.c2) ^ 2 + ((pixelA.c1 : Int) - pixelB.c1) ^ 2
    + ((pixelA.c0 : Int) - pixelB.c0) ^ 2).toNat

/-- The score `sqrt(squaredDistance) * scaler` with `scaler = scalerBase ^ 0.3`, truncated
toward zero: the greatest `n` with `n ≤ sqrt(D) * m ^ (3/10)`, that is with
`n ^ 20 ≤ D ^ 10 * m ^ 6`. As `m ≤ 1` no `n` above `sqrt(D)` qualifies. -/
def scoreTrunc (pixelA pixelB : Vec3b) : Nat :=
  Nat.findGreatest
    (fun n => (n : ℚ) ^ 20 ≤ (squaredDistance pixelA pixelB : ℚ) ^ 10 * scalerBase pixelA pixelB ^ 6)
    (Nat.sqrt (squaredDistance pixelA pixelB))

/-- The `(uchar)` conversion of a non-negative truncated `double`: the value itself
below 256, its low eight bits beyond (the usual compiled behaviour; the C++ standard
leaves that case undefined). -/
def toUchar (n : Nat) : Nat := n % 256

/-- Pixel number `k` of a three-channel image in iterator (row-major) order. -/
def Mat3.nth (m : Mat3) (k : Nat) : Vec3b := m.px (k / m.cols) (k % m.cols)

/-- Function `calculateDifferenceHSV(imageA, imageB, imageOut)` for an output buffer of
`rows x cols` pixels: the three iterators advance together, so output pixel number `k`
is the score of pixel number `k` of `imageA` against pixel number `k` of `imageB`. -/
def calculateDifferenceHSV (imageA imageB : Mat3) (rows cols : Nat) : Mat :=
  { rows := rows, cols := cols
    px := fun i j =>
      toUchar (scoreTrunc (imageA.nth (i * cols + j)) (imageB.nth (i * cols + j))) }

/-! ## Cameras and the renderer -/

/-- The part of the external `Camera` class this file touches; `σ` is the state of the
camera's video decoder. -/
structure Camera (σ : Type) where
  /-- Decoder state behind `advanceVideoFrame` and `getVideoFrame`. -/
  video : σ
  /-- Current frame, `getFrame()`. -/
  frame : Mat3
  /-- Background planes, `getBgHsvChannels()`. -/
  bgHsvChannels : Channels
  /-- Foreground mask written by `setForegroundImage`. -/
  foregroundImage : Mat

/-- Method `Camera::setForegroundImage`. -/
def Camera.setForegroundImage {σ : Type} (camera : Camera σ) (foreground : Mat) : Camera σ :=
  { camera with foregroundImage := foreground }

/-- External code the renderer calls: the two frame-fetch methods of `Camera` and the
per-pixel `CV_BGR2HSV` conversion. -/
structure External (σ : Type) where
  advanceVideoFrame : Camera σ → Camera σ
  getVideoFrame : Camera σ → Int → Camera σ
  bgr2hsv : Vec3b → Vec3b

/-- The members of `Scene3DRenderer` read by `processFrame` and `processForeground`,
with the global flag `autoParameters`. -/
structure Scene3DRenderer where
  m_current_frame : Int
  m_previous_frame : Int
  m_h_threshold : Int
  m_s_threshold : Int
  m_v_threshold : Int
  m_erosion_size : Nat
  m_dilation_size : Nat
  autoParameters : Bool

/-- Lines 143-158 of `processForeground`: background subtraction on H, S and V with the
three thresholds, combined by `bitwise_and` and then `bitwise_or`. -/
def fixedSubtraction (r : Scene3DRenderer) (hsv_image : Mat3) (bg : Channels) :
    Except Failure Mat := do
  let channels := split hsv_image
  -- Background subtraction H
  let tmp ← absdiff channels.c0 bg.c0
  let foreground := threshold tmp r.m_h_threshold
  -- Background subtraction S
  let tmp ← absdiff channels.c1 bg.c1
  let background := threshold tmp r.m_s_threshold
  let foreground := bitwise_and foreground background
  -- Background subtraction V
  let tmp ← absdiff channels.c2 bg.c2
  let background := threshold tmp r.m_v_threshold
  let foreground := bitwise_or foreground background
  return foreground

/-- Lines 160-171 of `processForeground`: erode, dilate, erode with rectangular kernels
of sides `2 * size + 1` anchored at their centres. -/
def fixedMorphology (r : Scene3DRenderer) (foreground : Mat) : Mat :=
  let erosion_kernel := getStructuringElementRect (2 * r.m_erosion_size + 1)
    (2 * r.m_erosion_size + 1) (r.m_erosion_size, r.m_erosion_size)
  let dilation_kernel := getStructuringElementRect (2 * r.m_dilation_size + 1)
    (2 * r.m_dilation_size + 1) (r.m_dilation_size, r.m_dilation_size)
  let foreground := erode foreground erosion_kernel
  let foreground := dilate foreground dilation_kernel
  erode foreground erosion_kernel

/-- Line 175-178 of `processForeground`: the score image, of the size of the merged
background. -/
def differenceImage (hsv_image : Mat3) (bg : Channels) : Mat :=
  let background := merge bg
  calculateDifferenceHSV hsv_image background background.rows background.cols

/-- Lines 180-183 of `processForeground`: Otsu threshold of the score image (only its
threshold value is kept), threshold at half that value, `bitwise_or` with the score
image, Otsu threshold of the result. -/
def adaptiveThresholding (difference : Mat) : Mat :=
  let thresh := (thresholdOtsu difference).1
  let foreground := threshold difference ((thresh / 2 : Nat) : Int)
  let foreground := bitwise_or foreground difference
  (thresholdOtsu foreground).2

/-- Lines 185-191 of `processForeground`: dilate, erode with the 5x5 ellipse, then a 5x5
median. -/
def adaptiveMorphology (foreground : Mat) : Mat :=
  let erosion_kernel := getStructuringElementEllipse5 (2, 2)
  let dilation_kernel := getStructuringElementEllipse5 (2, 2)
  let foreground := dilate foreground dilation_kernel
  let foreground := erode foreground erosion_kernel
  medianBlur foreground 5

/-- Method `Scene3DRenderer::processForeground`. -/
def processForeground {σ : Type} (ext : External σ) (r : Scene3DRenderer)
    (camera : Camera σ) : Except Failure (Camera σ) :=
  if camera.frame.empty then .error .emptyFrame
  else
    let hsv_image := cvtColor ext.bgr2hsv camera.frame
    if !r.autoParameters then
      match fixedSubtraction r hsv_image camera.bgHsvChannels with
      | .error e => .error e
      | .ok foreground => .ok (camera.setForegroundImage (fixedMorphology r foreground))
    else
      let difference := differenceImage hsv_image camera.bgHsvChannels
      .ok (camera.setForegroundImage (adaptiveMorphology (adaptiveThresholding difference)))

/-- Calls made on camera number `c` that `processFrame` is observed through. -/
inductive Call where
  | advanceVideoFrame (c : Nat)
  | getVideoFrame (c : Nat) (index : Int)
  | setForegroundImage (c : Nat)
deriving DecidableEq, Repr

/-- Lines 115-122 of `processFrame`: the frame fetch for camera number `c`. -/
def fetchFrame {σ : Type} (ext : External σ) (r : Scene3DRenderer) (c : Nat)
    (camera : Camera σ) : Camera σ × List Call :=
  if r.m_current_frame = r.m_previous_frame + 1 then
    (ext.advanceVideoFrame camera, [Call.advanceVideoFrame c])
  else if r.m_current_frame ≠ r.m_previous_frame then
    (ext.getVideoFrame camera r.m_current_frame, [Call.getVideoFrame c r.m_current_frame])
  else
    (camera, [])

/-- What a run of `processFrame` leaves behind: the cameras, the calls made on them in
order, and the returned flag, or the failure that stopped the run. -/
structure Outcome (σ : Type) where
  cameras : List (Camera σ)
  calls : List Call
  result : Except Failure Bool

/-- The loop of `processFrame` from camera number `c` on, over the cameras not yet
visited. A failure inside `processForeground` ends the run on the spot. -/
def processFrameFrom {σ : Type} (ext : External σ) (r : Scene3DRenderer) :
    Nat → List (Camera σ) → Outcome σ
  | _, [] => { cameras := [], calls := [], result := .ok true }
  | c, camera :: rest =>
    let fetched := fetchFrame ext r c camera
    match processForeground ext r fetched.1 with
    | .error e => { cameras := fetched.1 :: rest, calls := fetched.2, result := .error e }
    | .ok camera' =>
      let o := processFrameFrom ext r (c + 1) rest
      { cameras := camera' :: o.cameras
        calls := fetched.2 ++ Call.setForegroundImage c :: o.calls
        result := o.result }

/-- Method `Scene3DRenderer::processFrame`. -/
def processFrame {σ : Type} (ext : External σ) (r : Scene3DRenderer)
    (m_cameras : List (Camera σ)) : Outcome σ :=
  processFrameFrom ext r 0 m_cameras

/-! ## Vocabulary of the properties -/

/-- Every pixel value of the image is 0 or 255. -/
def Mat.binary (m : Mat) : Prop := ∀ i j, m.px i j = 0 ∨ m.px i j = 255

/-- Number of pixels of the image with value 255 (the foreground pixel count). -/
def foregroundCount (m : Mat) : Nat := hist m 255

/-- The three background planes of the camera have the size of its current frame. -/
def Camera.bgFitsFrame {σ : Type} (camera : Camera σ) : Prop :=
  (camera.bgHsvChannels.c0.rows = camera.frame.rows ∧
    camera.bgHsvChannels.c0.cols = camera.frame.cols) ∧
  (camera.bgHsvChannels.c1.rows = camera.frame.rows ∧
    camera.bgHsvChannels.c1.cols = camera.frame.cols) ∧
  (camera.bgHsvChannels.c2.rows = camera.frame.rows ∧
    camera.bgHsvChannels.c2.cols = camera.frame.cols)

/-- The image `fixedSubtraction` returns when the sizes agree, written out: the three
thresholded differences combined by `bitwise_and`, then `bitwise_or`. -/
def fixedMask (r : Scene3DRenderer) (hsv_image : Mat3) (bg : Channels) : Mat :=
  bitwise_or
    (bitwise_and
      (threshold { rows := hsv_image.rows, cols := hsv_image.cols
                   px := fun i j => absdiffPx (hsv_image.px i j).c0 (bg.c0.px i j) }
        r.m_h_threshold)
      (threshold { rows := hsv_image.rows, cols := hsv_image.cols
                   px := fun i j => absdiffPx (hsv_image.px i j).c1 (bg.c1.px i j) }
        r.m_s_threshold))
    (threshold { rows := hsv_image.rows, cols := hsv_image.cols
                 px := fun i j => absdiffPx (hsv_image.px i j).c2 (bg.c2.px i j) }
      r.m_v_threshold)

/-! ## Concrete inputs -/

/-- A constant single-channel image. -/
def Mat.const (rows cols v : Nat) : Mat := { rows := rows, cols := cols, px := fun _ _ => v }

/-- The empty image, `cv::Mat()`. -/
def Mat.none : Mat := Mat.const 0 0 0

/-- A constant three-channel image. -/
def Mat3.const (rows cols : Nat) (v : Vec3b) : Mat3 :=
  { rows := rows, cols := cols, px := fun _ _ => v }

/-- External code for the examples: a decoder that hands the same frame back, and a
colour conversion that keeps the channels. -/
def exampleExternal : External Unit :=
  { advanceVideoFrame := fun camera => camera
    getVideoFrame := fun camera _ => camera
    bgr2hsv := fun v => v }

/-- The renderer as the constructor leaves it (`H = 10`, `S = 20`, `V = 50`, `E = 1`,
`D = 3`, frame 0 after frame -1), fixed pipeline. -/
def exampleRenderer : Scene3DRenderer :=
  { m_current_frame := 0, m_previous_frame := -1
    m_h_threshold := 10, m_s_threshold := 20, m_v_threshold := 50
    m_erosion_size := 1, m_dilation_size := 3
    autoParameters := false }

/-- A 2x2 camera whose frame differs from a black background in every channel. -/
def shiftedCamera : Camera Unit :=
  { video := ()
    frame := Mat3.const 2 2 ⟨100, 200, 250⟩
    bgHsvChannels := { c0 := Mat.const 2 2 0, c1 := Mat.const 2 2 0, c2 := Mat.const 2 2 0 }
    foregroundImage := Mat.none }

/-- A 2x2 camera whose frame equals its background in every channel. -/
def identicalCamera : Camera Unit :=
  { video := ()
    frame := Mat3.const 2 2 ⟨30, 60, 90⟩
    bgHsvChannels := { c0 := Mat.const 2 2 30, c1 := Mat.const 2 2 60, c2 := Mat.const 2 2 90 }
    foregroundImage := Mat.none }

/-- The camera number a call is made on. -/
def Call.camera : Call → Nat
  | .advanceVideoFrame c => c
  | .getVideoFrame c _ => c
  | .setForegroundImage c => c

/-- A camera whose current frame is empty. -/
def emptyCamera : Camera Unit :=
  { video := ()
    frame := Mat3.const 0 0 ⟨0, 0, 0⟩
    bgHsvChannels := { c0 := Mat.const 2 2 0, c1 := Mat.const 2 2 0, c2 := Mat.const 2 2 0 }
    foregroundImage := Mat.const 2 2 255 }

/-- The renderer re-invoked on frame 5 after frame 5 has been recorded as processed. -/
def pausedRenderer : Scene3DRenderer :=
  { exampleRenderer with m_current_frame := 5, m_previous_frame := 5 }

/-! ## The adaptive pipeline up to the second threshold -/

/-- Lines 180-182 of `processForeground`: the image handed to the second Otsu threshold.
The first `threshold` call only supplies `thresh`; its output is overwritten by the
threshold at `thresh * 0.5`, which is then combined by `bitwise_or` with `difference`. -/
def adaptiveUnion (difference : Mat) : Mat :=
  let thresh := (thresholdOtsu difference).1
  let foreground := threshold difference ((thresh / 2 : Nat) : Int)
  bitwise_or foreground difference

/-! ## View state -/

/-- Arcball vector `vec`: three `float` coordinates, embedded as rationals (the
coordinates are only stored and copied). -/
structure vec where
  x : ℚ
  y : ℚ
  z : ℚ
deriving DecidableEq

/-- The members of `Scene3DRenderer` read and written by `setCamera` and `setTopView`. -/
structure ViewState where
  m_camera_view : Bool
  m_current_camera : Int
  m_previous_camera : Int
  m_arcball_eye : vec
  m_arcball_centre : vec
  m_arcball_up : vec
deriving DecidableEq

/-- Method `Scene3DRenderer::setCamera`. `planes` lists, camera by camera, the point
`getCameraPlane()[0]`; indexing `m_cameras` outside the list has no defined result. -/
def setCamera (planes : List vec) (s : ViewState) (camera : Int) : Option ViewState :=
  let s := { s with m_camera_view := true }
  if s.m_current_camera ≠ camera then
    if 0 ≤ camera then
      match planes[camera.toNat]? with
      | some plane0 =>
        some { s with
          m_previous_camera := s.m_current_camera
          m_current_camera := camera
          m_arcball_eye := { x := plane0.x, y := plane0.y, z := plane0.z }
          m_arcball_up := { x := 0, y := 0, z := 1 } }
      | none => none
    else none
  else some s

/-- Method `Scene3DRenderer::setTopView`. -/
def setTopView (s : ViewState) : ViewState :=
  let s := { s with m_camera_view := false }
  let s := if s.m_current_camera ≠ -1 then
      { s with m_previous_camera := s.m_current_camera }
    else s
  { s with
    m_current_camera := -1
    m_arcball_eye := { x := 0, y := 0, z := 10000 }
    m_arcball_centre := { x := 0, y := 0, z := 0 }
    m_arcball_up := { x := 0, y := 1, z := 0 } }

/-- The view state the constructor leaves: `m_camera_view = true`, current and previous
camera 0, then `setTopView()`. The arcball vectors held before that call are overwritten;
they are taken as zero. -/
def constructedView : ViewState :=
  setTopView
    { m_camera_view := true, m_current_camera := 0, m_previous_camera := 0
      m_arcball_eye := { x := 0, y := 0, z := 0 }
      m_arcball_centre := { x := 0, y := 0, z := 0 }
      m_arcball_up := { x := 0, y := 0, z := 0 } }

/-- A view-switching command. -/
inductive ViewOp where
  | setCamera (id : Int)
  | setTopView
deriving DecidableEq

/-- Run a sequence of view-switching commands from a state. -/
def runView (planes : List vec) : List ViewOp → ViewState → Option ViewState
  | [], s => some s
  | ViewOp.setCamera id :: ops, s =>
    match setCamera planes s id with
    | some s' => runView planes ops s'
    | none => none
  | ViewOp.setTopView :: ops, s => runView planes ops (setTopView s)

/-- Every `setCamera` command of the sequence names one of the `n` cameras. -/
def ViewOp.valid (n : Nat) : ViewOp → Prop
  | ViewOp.setCamera id => 0 ≤ id ∧ id < (n : Int)
  | ViewOp.setTopView => True

/-! ## Floor grid -/

/-- Integer point `cv::Point3i`. -/
structure Point3i where
  x : Int
  y : Int
  z : Int
deriving DecidableEq, Repr

/-- One edge loop of `createFloorGrid`,
`for (int t = start; t <= stop; t += size) edge.push_back(mk(t))`, run for at most `fuel`
tests of the loop condition: the points pushed, or `none` when the loop is still running
after `fuel` tests. -/
def edgeLoop (mk : Int → Point3i) (size stop : Int) : Nat → Int → Option (List Point3i)
  | 0, _ => none
  | fuel + 1, t =>
    if t ≤ stop then
      match edgeLoop mk size stop fuel (t + size) with
      | some rest => some (mk t :: rest)
      | none => none
    else some []

/-- Method `Scene3DRenderer::createFloorGrid` (lines 238-264): the four edges pushed to
`m_floor_grid`, for the reconstruction width `width = m_reconstructor.getWidth()` and the
division count `m_num` (4 in the constructor); integer division truncates as in C. -/
def createFloorGrid (fuel : Nat) (width : Int) (m_num : Nat) : Option (List (List Point3i)) :=
  let size : Int := (width.tdiv 2).tdiv m_num
  let z_offset : Int := 3
  match edgeLoop (fun y => ⟨-size * m_num, y, z_offset⟩) size (size * m_num) fuel
      (-size * m_num),
    edgeLoop (fun x => ⟨x, size * m_num, z_offset⟩) size (size * m_num) fuel (-size * m_num),
    edgeLoop (fun y => ⟨size * m_num, y, z_offset⟩) size (size * m_num) fuel (-size * m_num),
    edgeLoop (fun x => ⟨x, -size * m_num, z_offset⟩) size (size * m_num) fuel
      (-size * m_num) with
  | some edge1, some edge2, some edge3, some edge4 => some [edge1, edge2, edge3, edge4]
  | _, _, _, _ => none

/-- Camera positions for the examples. -/
def examplePlanes : List vec :=
  [{ x := 1000, y := 0, z := 500 }, { x := 0, y := 1500, z := 500 },
   { x := -1000, y := 0, z := 500 }, { x := 0, y := -1500, z := 500 }]

/-- A 1x3 score image with the values 1, 10 and 200. -/
def exampleScore : Mat :=
  { rows := 1, cols := 3, px := fun _ j => if j = 0 then 1 else if j = 1 then 10 else 200 }

/-- The point `c` is the first or the last point of the polyline `e`. -/
def isEndpoint (c : Point3i) (e : List Point3i) : Bool :=
  decide (e.head? = some c ∨ e.getLast? = some c)

/-- A reconstruction width for the examples. -/
def exampleWidth : Int := 2048

/-- The division count `m_num` set by the constructor. -/
def constructedNum : Nat := 4

/-- The image the specification describes for the input of the second automatic
threshold: the union of the coarse mask `difference > thresh` and the half-threshold mask
`difference > thresh / 2`. -/
def unionOfMasks (difference : Mat) : Mat :=
  let thresh := (thresholdOtsu difference).1
  bitwise_or (threshold difference (thresh : Int))
    (threshold difference ((thresh / 2 : Nat) : Int))

/-- HSV of a saturated bright red pixel, BGR (0, 0, 255). -/
def redPixel : Vec3b := ⟨0, 255, 255⟩

/-- HSV of a black pixel, BGR (0, 0, 0). -/
def blackPixel : Vec3b := ⟨0, 0, 0⟩

/-! ## Lemmas on the image primitives -/


theorem le_foldl_min_iff (l : List Nat) (a x : Nat) :
    x ≤ l.foldl min a ↔ x ≤ a ∧ ∀ y ∈ l, x ≤ y := by
  induction l generalizing a with
  | nil => simp
  | cons b t ih =>
    simp only [List.foldl_cons, ih, le_min_iff, List.mem_cons, forall_eq_or_imp]
    tauto

theorem foldl_max_le_iff (l : List Nat) (a x : Nat) :
    l.foldl max a ≤ x ↔ a ≤ x ∧ ∀ y ∈ l, y ≤ x := by
  induction l generalizing a with
  | nil => simp
  | cons b t ih =>
    simp only [List.foldl_cons, ih, max_le_iff, List.mem_cons, forall_eq_or_imp]
    tauto

theorem foldl_min_le_of_mem (l : List Nat) (a y : Nat) (hy : y ∈ l) : l.foldl min a ≤ y :=
  ((le_foldl_min_iff l a _).1 le_rfl).2 y hy

theorem le_foldl_max_of_mem (l : List Nat) (a y : Nat) (hy : y ∈ l) : y ≤ l.foldl max a :=
  ((foldl_max_le_iff l a _).1 le_rfl).2 y hy

theorem foldl_min_mem (l : List Nat) (a : Nat) : l.foldl min a = a ∨ l.foldl min a ∈ l := by
  induction l generalizing a with
  | nil => simp
  | cons b t ih =>
    simp only [List.foldl_cons, List.mem_cons]
    rcases ih (min a b) with h | h
    · rcases min_choice a b with h' | h'
      · left; rw [h, h']
      · right; left; rw [h, h']
    · right; right; exact h

theorem foldl_max_mem (l : List Nat) (a : Nat) : l.foldl max a = a ∨ l.foldl max a ∈ l := by
  induction l generalizing a with
  | nil => simp
  | cons b t ih =>
    simp only [List.foldl_cons, List.mem_cons]
    rcases ih (max a b) with h | h
    · rcases max_choice a b with h' | h'
      · left; rw [h, h']
      · right; left; rw [h, h']
    · right; right; exact h

/-- A sample is the border value or a pixel of the image. -/
theorem sample_eq (src : Mat) (k : Kernel) (border i j : Nat) (e : Nat × Nat) :
    sample src k border i j e = border ∨
      ∃ a b, a < src.rows ∧ b < src.cols ∧ a + k.anchor.2 = i + e.2 ∧ b + k.anchor.1 = j + e.1 ∧
        sample src k border i j e = src.px a b := by
  unfold sample
  split_ifs with h
  · right
    exact ⟨_, _, h.2.1, h.2.2.2, by omega, by omega, rfl⟩
  · left; rfl

theorem threshold_binary (src : Mat) (t : Int) : (threshold src t).binary := by
  intro i j
  simp only [threshold]
  split_ifs <;> simp

theorem erode_binary (src : Mat) (k : Kernel) (h : src.binary) : (erode src k).binary := by
  intro i j
  simp only [erode]
  rcases foldl_min_mem (k.elems.map (sample src k 255 i j)) 255 with h' | h'
  · right; exact h'
  · obtain ⟨e, -, he⟩ := List.mem_map.1 h'
    rw [← he]
    rcases sample_eq src k 255 i j e with hs | ⟨a, b, -, -, -, -, hs⟩
    · right; exact hs
    · rw [hs]; exact h a b

theorem dilate_binary (src : Mat) (k : Kernel) (h : src.binary) : (dilate src k).binary := by
  intro i j
  simp only [dilate]
  rcases foldl_max_mem (k.elems.map (sample src k 0 i j)) 0 with h' | h'
  · left; exact h'
  · obtain ⟨e, -, he⟩ := List.mem_map.1 h'
    rw [← he]
    rcases sample_eq src k 0 i j e with hs | ⟨a, b, -, -, -, -, hs⟩
    · left; exact hs
    · rw [hs]; exact h a b

theorem getD_mem_or_default (l : List Nat) (n d : Nat) : l.getD n d = d ∨ l.getD n d ∈ l := by
  by_cases hn : n < l.length
  · right
    rw [List.getD_eq_getElem l d hn]
    exact List.getElem_mem hn
  · left
    exact List.getD_eq_default l d (by omega)

/-- The value `medianBlur` writes is 0 (never reached for a real window) or one of the
pixels of the source. -/
theorem medianBlur_px_mem (src : Mat) (ksize i j : Nat) :
    (medianBlur src ksize).px i j = 0 ∨
      ∃ a b, a ≤ src.rows - 1 ∧ b ≤ src.cols - 1 ∧ (medianBlur src ksize).px i j = src.px a b := by
  simp only [medianBlur]
  rcases getD_mem_or_default
    (((List.range ksize).flatMap fun a => (List.range ksize).map fun b =>
        src.px (min (i + a - ksize / 2) (src.rows - 1))
          (min (j + b - ksize / 2) (src.cols - 1))).insertionSort (· ≤ ·))
    (ksize * ksize / 2) 0 with h | h
  · left; exact h
  · right
    rw [(List.perm_insertionSort _ _).mem_iff] at h
    obtain ⟨a, -, h⟩ := List.mem_flatMap.1 h
    obtain ⟨b, -, h⟩ := List.mem_map.1 h
    exact ⟨_, _, min_le_right _ _, min_le_right _ _, h.symm⟩

theorem medianBlur_binary (src : Mat) (ksize : Nat) (h : src.binary) :
    (medianBlur src ksize).binary := by
  intro i j
  rcases medianBlur_px_mem src ksize i j with h' | ⟨a, b, -, -, h'⟩
  · left; exact h'
  · rw [h']; exact h a b


theorem absdiffPx_cast (a b : Nat) :
    ((absdiffPx a b : Nat) : Int) = |(a : Int) - (b : Int)| := by
  unfold absdiffPx
  split_ifs with h
  · rw [abs_of_nonneg (by omega)]; omega
  · rw [abs_of_neg (by omega)]; omega

theorem absdiff_ok (a b : Mat) (hr : b.rows = a.rows) (hc : b.cols = a.cols) :
    absdiff a b = .ok { rows := a.rows, cols := a.cols
                        px := fun i j => absdiffPx (a.px i j) (b.px i j) } := by
  simp [absdiff, hr, hc]

theorem fixedSubtraction_ok (r : Scene3DRenderer) (hsv_image : Mat3) (bg : Channels)
    (h0 : bg.c0.rows = hsv_image.rows ∧ bg.c0.cols = hsv_image.cols)
    (h1 : bg.c1.rows = hsv_image.rows ∧ bg.c1.cols = hsv_image.cols)
    (h2 : bg.c2.rows = hsv_image.rows ∧ bg.c2.cols = hsv_image.cols) :
    fixedSubtraction r hsv_image bg = .ok (fixedMask r hsv_image bg) := by
  have e0 := absdiff_ok (split hsv_image).c0 bg.c0 h0.1 h0.2
  have e1 := absdiff_ok (split hsv_image).c1 bg.c1 h1.1 h1.2
  have e2 := absdiff_ok (split hsv_image).c2 bg.c2 h2.1 h2.2
  simp only [fixedSubtraction, e0, e1, e2]
  rfl

theorem fixedMask_px (r : Scene3DRenderer) (hsv_image : Mat3) (bg : Channels) (i j : Nat) :
    (fixedMask r hsv_image bg).px i j =
      if (r.m_h_threshold < |((hsv_image.px i j).c0 : Int) - (bg.c0.px i j : Int)| ∧
          r.m_s_threshold < |((hsv_image.px i j).c1 : Int) - (bg.c1.px i j : Int)|) ∨
          r.m_v_threshold < |((hsv_image.px i j).c2 : Int) - (bg.c2.px i j : Int)|
      then 255 else 0 := by
  simp only [fixedMask, bitwise_or, bitwise_and, threshold, absdiffPx_cast]
  by_cases hh : r.m_h_threshold < |((hsv_image.px i j).c0 : Int) - (bg.c0.px i j : Int)| <;>
  by_cases hs : r.m_s_threshold < |((hsv_image.px i j).c1 : Int) - (bg.c1.px i j : Int)| <;>
  by_cases hv : r.m_v_threshold < |((hsv_image.px i j).c2 : Int) - (bg.c2.px i j : Int)| <;>
  simp [hh, hs, hv]

/-- On a non-empty frame whose background planes fit, the fixed pipeline stores the
refined `fixedMask`. -/
theorem processForeground_fixed {σ : Type} (ext : External σ) (r : Scene3DRenderer)
    (camera : Camera σ) (hauto : r.autoParameters = false)
    (hne : camera.frame.empty = false) (hbg : camera.bgFitsFrame) :
    processForeground ext r camera =
      .ok (camera.setForegroundImage
        (fixedMorphology r
          (fixedMask r (cvtColor ext.bgr2hsv camera.frame) camera.bgHsvChannels))) := by
  have h := fixedSubtraction_ok r (cvtColor ext.bgr2hsv camera.frame) camera.bgHsvChannels
    hbg.1 hbg.2.1 hbg.2.2
  simp only [processForeground, hne, hauto, h]
  rfl

/-- On a non-empty frame the adaptive pipeline stores the refined, thresholded score
image. -/
theorem processForeground_adaptive {σ : Type} (ext : External σ) (r : Scene3DRenderer)
    (camera : Camera σ) (hauto : r.autoParameters = true)
    (hne : camera.frame.empty = false) :
    processForeground ext r camera =
      .ok (camera.setForegroundImage
        (adaptiveMorphology (adaptiveThresholding
          (differenceImage (cvtColor ext.bgr2hsv camera.frame) camera.bgHsvChannels)))) := by
  simp only [processForeground, hne, hauto]
  rfl

/-! ## The fixed-threshold pipeline before morphology -/

/-- C1: with `autoParameters` off, on a non-empty frame whose background planes fit,
`processForeground` refines a mask that is, at every pixel, 255 when
(|H - Hbg| > h and |S - Sbg| > s) or |V - Vbg| > v, and 0 otherwise. -/
theorem fixedSubtraction_hue_and_sat_or_val {σ : Type} (ext : External σ)
    (r : Scene3DRenderer) (camera : Camera σ) (hauto : r.autoParameters = false)
    (hne : camera.frame.empty = false) (hbg : camera.bgFitsFrame) :
    ∃ mask : Mat,
      fixedSubtraction r (cvtColor ext.bgr2hsv camera.frame) camera.bgHsvChannels = .ok mask ∧
      processForeground ext r camera
        = .ok (camera.setForegroundImage (fixedMorphology r mask)) ∧
      mask.rows = camera.frame.rows ∧ mask.cols = camera.frame.cols ∧
      ∀ i j, mask.px i j =
        if (r.m_h_threshold < |((ext.bgr2hsv (camera.frame.px i j)).c0 : Int)
              - (camera.bgHsvChannels.c0.px i j : Int)| ∧
            r.m_s_threshold < |((ext.bgr2hsv (camera.frame.px i j)).c1 : Int)
              - (camera.bgHsvChannels.c1.px i j : Int)|) ∨
            r.m_v_threshold < |((ext.bgr2hsv (camera.frame.px i j)).c2 : Int)
              - (camera.bgHsvChannels.c2.px i j : Int)|
        then 255 else 0 :=
  ⟨fixedMask r (cvtColor ext.bgr2hsv camera.frame) camera.bgHsvChannels,
    fixedSubtraction_ok r _ _ hbg.1 hbg.2.1 hbg.2.2,
    processForeground_fixed ext r camera hauto hne hbg, rfl, rfl,
    fun i j => fixedMask_px r _ _ i j⟩

/-- Witness of C1 on the 2x2 camera `shiftedCamera`. -/
theorem fixedSubtraction_hue_and_sat_or_val_witness :
    exampleRenderer.autoParameters = false ∧ shiftedCamera.frame.empty = false ∧
    shiftedCamera.bgFitsFrame ∧
    ∃ mask : Mat,
      fixedSubtraction exampleRenderer (cvtColor exampleExternal.bgr2hsv shiftedCamera.frame)
        shiftedCamera.bgHsvChannels = .ok mask ∧
      processForeground exampleExternal exampleRenderer shiftedCamera
        = .ok (shiftedCamera.setForegroundImage (fixedMorphology exampleRenderer mask)) ∧
      mask.rows = shiftedCamera.frame.rows ∧ mask.cols = shiftedCamera.frame.cols ∧
      ∀ i j, mask.px i j =
        if (exampleRenderer.m_h_threshold
              < |((exampleExternal.bgr2hsv (shiftedCamera.frame.px i j)).c0 : Int)
                - (shiftedCamera.bgHsvChannels.c0.px i j : Int)| ∧
            exampleRenderer.m_s_threshold
              < |((exampleExternal.bgr2hsv (shiftedCamera.frame.px i j)).c1 : Int)
                - (shiftedCamera.bgHsvChannels.c1.px i j : Int)|) ∨
            exampleRenderer.m_v_threshold
              < |((exampleExternal.bgr2hsv (shiftedCamera.frame.px i j)).c2 : Int)
                - (shiftedCamera.bgHsvChannels.c2.px i j : Int)|
        then 255 else 0 :=
  ⟨rfl, rfl, ⟨⟨rfl, rfl⟩, ⟨rfl, rfl⟩, ⟨rfl, rfl⟩⟩,
    fixedSubtraction_hue_and_sat_or_val exampleExternal exampleRenderer shiftedCamera rfl rfl
      ⟨⟨rfl, rfl⟩, ⟨rfl, rfl⟩, ⟨rfl, rfl⟩⟩⟩

/-- C7: when at every pixel of the frame all three channel differences exceed their
thresholds, the fixed pipeline's mask before morphology is 255 at every pixel. -/
theorem fixedSubtraction_uniform_shift {σ : Type} (ext : External σ)
    (r : Scene3DRenderer) (camera : Camera σ) (hbg : camera.bgFitsFrame)
    (hshift : ∀ i j, i < camera.frame.rows → j < camera.frame.cols →
      r.m_h_threshold < |((ext.bgr2hsv (camera.frame.px i j)).c0 : Int)
        - (camera.bgHsvChannels.c0.px i j : Int)| ∧
      r.m_s_threshold < |((ext.bgr2hsv (camera.frame.px i j)).c1 : Int)
        - (camera.bgHsvChannels.c1.px i j : Int)| ∧
      r.m_v_threshold < |((ext.bgr2hsv (camera.frame.px i j)).c2 : Int)
        - (camera.bgHsvChannels.c2.px i j : Int)|) :
    ∃ mask : Mat,
      fixedSubtraction r (cvtColor ext.bgr2hsv camera.frame) camera.bgHsvChannels = .ok mask ∧
      mask.rows = camera.frame.rows ∧ mask.cols = camera.frame.cols ∧
      ∀ i j, i < mask.rows → j < mask.cols → mask.px i j = 255 := by
  refine ⟨fixedMask r (cvtColor ext.bgr2hsv camera.frame) camera.bgHsvChannels,
    fixedSubtraction_ok r _ _ hbg.1 hbg.2.1 hbg.2.2, rfl, rfl, ?_⟩
  intro i j hi hj
  have h := hshift i j hi hj
  rw [fixedMask_px]
  exact if_pos (Or.inr h.2.2)

/-- Witness of C7 on `shiftedCamera`: differences 100, 200, 250 against thresholds 10, 20,
50. -/
theorem fixedSubtraction_uniform_shift_witness :
    shiftedCamera.bgFitsFrame ∧
    ∃ mask : Mat,
      fixedSubtraction exampleRenderer (cvtColor exampleExternal.bgr2hsv shiftedCamera.frame)
        shiftedCamera.bgHsvChannels = .ok mask ∧
      mask.rows = shiftedCamera.frame.rows ∧ mask.cols = shiftedCamera.frame.cols ∧
      ∀ i j, i < mask.rows → j < mask.cols → mask.px i j = 255 :=
  ⟨⟨⟨rfl, rfl⟩, ⟨rfl, rfl⟩, ⟨rfl, rfl⟩⟩,
    fixedSubtraction_uniform_shift exampleExternal exampleRenderer shiftedCamera
      ⟨⟨rfl, rfl⟩, ⟨rfl, rfl⟩, ⟨rfl, rfl⟩⟩
      (fun _ _ _ _ => by
        simp [exampleRenderer, exampleExternal, shiftedCamera, Mat3.const, Mat.const])⟩

theorem mem_rect_elems (w h : Nat) (anchor e : Nat × Nat) :
    e ∈ (getStructuringElementRect w h anchor).elems ↔ e.1 < w ∧ e.2 < h := by
  obtain ⟨x, y⟩ := e
  simp only [getStructuringElementRect, List.mem_flatMap, List.mem_map, List.mem_range,
    Prod.mk.injEq]
  constructor
  · rintro ⟨y', hy, x', hx, rfl, rfl⟩
    exact ⟨hx, hy⟩
  · rintro ⟨hx, hy⟩
    exact ⟨y, hy, x, hx, rfl, rfl⟩

/-- A sample that lands on the pixel `(a, b)` of the image reads it. -/
theorem sample_at (src : Mat) (k : Kernel) (border i j a b : Nat) (e : Nat × Nat)
    (ha : a < src.rows) (hb : b < src.cols)
    (hi : a + k.anchor.2 = i + e.2) (hj : b + k.anchor.1 = j + e.1) :
    sample src k border i j e = src.px a b := by
  have e1 : i + e.2 - k.anchor.2 = a := by omega
  have e2 : j + e.1 - k.anchor.1 = b := by omega
  unfold sample
  rw [e1, e2, if_pos ⟨by omega, ha, by omega, hb⟩]

theorem erode_le_px (src : Mat) (k : Kernel) (i j a b : Nat) (e : Nat × Nat)
    (he : e ∈ k.elems) (ha : a < src.rows) (hb : b < src.cols)
    (hi : a + k.anchor.2 = i + e.2) (hj : b + k.anchor.1 = j + e.1) :
    (erode src k).px i j ≤ src.px a b := by
  rw [← sample_at src k 255 i j a b e ha hb hi hj]
  exact foldl_min_le_of_mem _ _ _ (List.mem_map_of_mem _ he)

theorem dilate_px_le (src : Mat) (k : Kernel) (i j x : Nat)
    (h : ∀ e ∈ k.elems, ∀ a b, a < src.rows → b < src.cols →
      a + k.anchor.2 = i + e.2 → b + k.anchor.1 = j + e.1 → src.px a b ≤ x) :
    (dilate src k).px i j ≤ x := by
  simp only [dilate]
  rw [foldl_max_le_iff]
  refine ⟨Nat.zero_le _, ?_⟩
  intro y hy
  obtain ⟨e, he, rfl⟩ := List.mem_map.1 hy
  rcases sample_eq src k 0 i j e with hs | ⟨a, b, ha, hb, hi, hj, hs⟩
  · rw [hs]; exact Nat.zero_le _
  · rw [hs]; exact h e he a b ha hb hi hj

theorem sample_mono (a b : Mat) (k : Kernel) (border i j : Nat) (e : Nat × Nat)
    (hr : a.rows = b.rows) (hc : a.cols = b.cols)
    (h : ∀ i j, i < b.rows → j < b.cols → a.px i j ≤ b.px i j) :
    sample a k border i j e ≤ sample b k border i j e := by
  unfold sample
  rw [hr, hc]
  split_ifs with hin
  · exact h _ _ hin.2.1 hin.2.2.2
  · exact le_rfl

theorem erode_mono (a b : Mat) (k : Kernel) (hr : a.rows = b.rows) (hc : a.cols = b.cols)
    (h : ∀ i j, i < b.rows → j < b.cols → a.px i j ≤ b.px i j) (i j : Nat) :
    (erode a k).px i j ≤ (erode b k).px i j := by
  simp only [erode]
  rw [le_foldl_min_iff]
  refine ⟨((le_foldl_min_iff _ _ _).1 le_rfl).1, ?_⟩
  intro y hy
  obtain ⟨e, he, rfl⟩ := List.mem_map.1 hy
  exact (foldl_min_le_of_mem _ _ _ (List.mem_map_of_mem _ he)).trans
    (sample_mono a b k 255 i j e hr hc h)

theorem dilate_mono (a b : Mat) (k : Kernel) (hr : a.rows = b.rows) (hc : a.cols = b.cols)
    (h : ∀ i j, i < b.rows → j < b.cols → a.px i j ≤ b.px i j) (i j : Nat) :
    (dilate a k).px i j ≤ (dilate b k).px i j := by
  simp only [dilate]
  rw [foldl_max_le_iff]
  refine ⟨Nat.zero_le _, ?_⟩
  intro y hy
  obtain ⟨e, he, rfl⟩ := List.mem_map.1 hy
  exact (sample_mono a b k 0 i j e hr hc h).trans
    (le_foldl_max_of_mem _ _ _ (List.mem_map_of_mem _ he))

/-- Erosion with the centred square of radius `n` is below every pixel of the image at
Chebyshev distance at most `n`. -/
theorem erode_rect_le (src : Mat) (n i j a b : Nat) (ha : a < src.rows) (hb : b < src.cols)
    (h1 : a ≤ i + n) (h2 : i ≤ a + n) (h3 : b ≤ j + n) (h4 : j ≤ b + n) :
    (erode src (getStructuringElementRect (2 * n + 1) (2 * n + 1) (n, n))).px i j
      ≤ src.px a b := by
  refine erode_le_px src _ i j a b (b + n - j, a + n - i) ?_ ha hb ?_ ?_
  · rw [mem_rect_elems]; constructor <;> simp only <;> omega
  · simp only [getStructuringElementRect]; omega
  · simp only [getStructuringElementRect]; omega

/-- Dilation with the centred square of radius `n` is bounded by any bound on the pixels
of the image at Chebyshev distance at most `n`. -/
theorem dilate_rect_le (src : Mat) (n i j x : Nat)
    (h : ∀ a b, a < src.rows → b < src.cols → a ≤ i + n → i ≤ a + n → b ≤ j + n → j ≤ b + n →
      src.px a b ≤ x) :
    (dilate src (getStructuringElementRect (2 * n + 1) (2 * n + 1) (n, n))).px i j ≤ x := by
  refine dilate_px_le src _ i j x ?_
  intro e he a b ha hb hi hj
  rw [mem_rect_elems] at he
  simp only [getStructuringElementRect] at hi hj
  exact h a b ha hb (by omega) (by omega) (by omega) (by omega)

/-- The refinement of the fixed pipeline keeps the size of the mask. -/
theorem fixedMorphology_size (r : Scene3DRenderer) (m : Mat) :
    (fixedMorphology r m).rows = m.rows ∧ (fixedMorphology r m).cols = m.cols :=
  ⟨rfl, rfl⟩

theorem fixedMorphology_binary (r : Scene3DRenderer) (m : Mat) (h : m.binary) :
    (fixedMorphology r m).binary :=
  erode_binary _ _ (dilate_binary _ _ (erode_binary _ _ h))

theorem fixedMorphology_mono (r : Scene3DRenderer) (a b : Mat)
    (hr : a.rows = b.rows) (hc : a.cols = b.cols)
    (h : ∀ i j, i < b.rows → j < b.cols → a.px i j ≤ b.px i j) (i j : Nat) :
    (fixedMorphology r a).px i j ≤ (fixedMorphology r b).px i j := by
  simp only [fixedMorphology]
  refine erode_mono _ _ _ (by exact hr) (by exact hc) (fun i j _ _ => ?_) i j
  refine dilate_mono _ _ _ (by exact hr) (by exact hc) (fun i j _ _ => ?_) i j
  exact erode_mono _ _ _ hr hc h i j

/-- The refinement of the fixed pipeline maps an all-zero mask to an all-zero mask. -/
theorem fixedMorphology_zero (r : Scene3DRenderer) (m : Mat)
    (h : ∀ i j, i < m.rows → j < m.cols → m.px i j = 0) (i j : Nat)
    (hi : i < m.rows) (hj : j < m.cols) : (fixedMorphology r m).px i j = 0 := by
  simp only [fixedMorphology]
  apply Nat.eq_zero_of_le_zero
  refine (erode_rect_le _ r.m_erosion_size i j i j (by exact hi) (by exact hj) (by omega)
    (by omega) (by omega) (by omega)).trans ?_
  refine dilate_rect_le _ r.m_dilation_size i j 0 ?_
  intro a b ha hb _ _ _ _
  refine (erode_rect_le m r.m_erosion_size a b a b ha hb (by omega) (by omega) (by omega)
    (by omega)).trans ?_
  exact (h a b ha hb).le

theorem hist_mono (a b : Mat) (v : Nat) (hr : a.rows = b.rows) (hc : a.cols = b.cols)
    (h : ∀ i j, a.px i j = v → b.px i j = v) : hist a v ≤ hist b v := by
  unfold hist
  rw [hr, hc]
  refine List.sum_le_sum (fun i _ => ?_)
  rw [← List.countP_eq_length_filter, ← List.countP_eq_length_filter]
  exact List.countP_mono_left (fun j _ hj => by simpa using h i j (by simpa using hj))

/-! ## The fixed-threshold pipeline after morphology -/

theorem fixedMask_binary (r : Scene3DRenderer) (hsv_image : Mat3) (bg : Channels) :
    (fixedMask r hsv_image bg).binary := by
  intro i j
  rw [fixedMask_px]
  split_ifs
  · right; rfl
  · left; rfl

/-- C6: when the HSV channels of the frame equal the background planes pixel for pixel
and the hue and value thresholds are non-negative (whatever the saturation threshold and
the kernel radii), the mask stored by the fixed pipeline has the size of the frame and is
0 at every pixel. -/
theorem processForeground_fixed_identical {σ : Type} (ext : External σ)
    (r : Scene3DRenderer) (camera : Camera σ) (hauto : r.autoParameters = false)
    (hne : camera.frame.empty = false) (hbg : camera.bgFitsFrame)
    (hsame : ∀ i j, i < camera.frame.rows → j < camera.frame.cols →
      (ext.bgr2hsv (camera.frame.px i j)).c0 = camera.bgHsvChannels.c0.px i j ∧
      (ext.bgr2hsv (camera.frame.px i j)).c1 = camera.bgHsvChannels.c1.px i j ∧
      (ext.bgr2hsv (camera.frame.px i j)).c2 = camera.bgHsvChannels.c2.px i j)
    (hh : 0 ≤ r.m_h_threshold) (hv : 0 ≤ r.m_v_threshold) :
    ∃ camera' : Camera σ, processForeground ext r camera = .ok camera' ∧
      camera'.foregroundImage.rows = camera.frame.rows ∧
      camera'.foregroundImage.cols = camera.frame.cols ∧
      ∀ i j, i < camera.frame.rows → j < camera.frame.cols →
        camera'.foregroundImage.px i j = 0 := by
  refine ⟨_, processForeground_fixed ext r camera hauto hne hbg, rfl, rfl, ?_⟩
  intro i j hi hj
  refine fixedMorphology_zero r _ ?_ i j hi hj
  intro a b ha hb
  obtain ⟨e0, e1, e2⟩ := hsame a b ha hb
  rw [fixedMask_px]
  simp only [cvtColor, e0, e1, e2, sub_self, abs_zero]
  rw [if_neg]
  omega

/-- Witness of C6 on `identicalCamera` with the constructor's thresholds and radii. -/
theorem processForeground_fixed_identical_witness :
    ∃ camera' : Camera Unit,
      processForeground exampleExternal exampleRenderer identicalCamera = .ok camera' ∧
      camera'.foregroundImage.rows = identicalCamera.frame.rows ∧
      camera'.foregroundImage.cols = identicalCamera.frame.cols ∧
      ∀ i j, i < identicalCamera.frame.rows → j < identicalCamera.frame.cols →
        camera'.foregroundImage.px i j = 0 :=
  processForeground_fixed_identical exampleExternal exampleRenderer identicalCamera rfl rfl
    ⟨⟨rfl, rfl⟩, ⟨rfl, rfl⟩, ⟨rfl, rfl⟩⟩ (fun _ _ _ _ => ⟨rfl, rfl, rfl⟩)
    (by decide) (by decide)

/-- C5: in the fixed pipeline, with everything else held fixed, the final mask for the
larger value threshold is contained pixel by pixel in the final mask for the smaller
one, and so its count of 255-pixels is not larger. -/
theorem processForeground_valThreshold_antitone {σ : Type} (ext : External σ)
    (r : Scene3DRenderer) (camera : Camera σ) (v1 v2 : Int) (hv : v1 ≤ v2)
    (hauto : r.autoParameters = false) (hne : camera.frame.empty = false)
    (hbg : camera.bgFitsFrame) :
    ∃ m1 m2 : Mat,
      processForeground ext { r with m_v_threshold := v1 } camera
        = .ok (camera.setForegroundImage m1) ∧
      processForeground ext { r with m_v_threshold := v2 } camera
        = .ok (camera.setForegroundImage m2) ∧
      (∀ i j, m2.px i j = 255 → m1.px i j = 255) ∧
      (∀ i j, m2.px i j ≤ m1.px i j) ∧
      foregroundCount m2 ≤ foregroundCount m1 := by
  have hle : ∀ i j,
      (fixedMorphology { r with m_v_threshold := v2 }
        (fixedMask { r with m_v_threshold := v2 } (cvtColor ext.bgr2hsv camera.frame)
          camera.bgHsvChannels)).px i j ≤
      (fixedMorphology { r with m_v_threshold := v1 }
        (fixedMask { r with m_v_threshold := v1 } (cvtColor ext.bgr2hsv camera.frame)
          camera.bgHsvChannels)).px i j := by
    intro i j
    refine fixedMorphology_mono r
      (fixedMask { r with m_v_threshold := v2 } (cvtColor ext.bgr2hsv camera.frame)
        camera.bgHsvChannels)
      (fixedMask { r with m_v_threshold := v1 } (cvtColor ext.bgr2hsv camera.frame)
        camera.bgHsvChannels) rfl rfl ?_ i j
    intro a b _ _
    rw [fixedMask_px, fixedMask_px]
    simp only
    split_ifs with h2 h1 h1
    · exact le_rfl
    · exfalso
      apply h1
      rcases h2 with h | h
      · exact Or.inl h
      · exact Or.inr (lt_of_le_of_lt hv h)
    · exact Nat.zero_le _
    · exact le_rfl
  have himp : ∀ i j,
      (fixedMorphology { r with m_v_threshold := v2 }
        (fixedMask { r with m_v_threshold := v2 } (cvtColor ext.bgr2hsv camera.frame)
          camera.bgHsvChannels)).px i j = 255 →
      (fixedMorphology { r with m_v_threshold := v1 }
        (fixedMask { r with m_v_threshold := v1 } (cvtColor ext.bgr2hsv camera.frame)
          camera.bgHsvChannels)).px i j = 255 := by
    intro i j h
    have h' := hle i j
    rw [h] at h'
    rcases fixedMorphology_binary { r with m_v_threshold := v1 } _
      (fixedMask_binary { r with m_v_threshold := v1 } (cvtColor ext.bgr2hsv camera.frame)
        camera.bgHsvChannels) i j with h0 | h0
    · rw [h0] at h'; omega
    · exact h0
  exact ⟨_, _, processForeground_fixed ext _ camera hauto hne hbg,
    processForeground_fixed ext _ camera hauto hne hbg, himp, hle,
    hist_mono _ _ 255 rfl rfl himp⟩

/-- Witness of C5 on `shiftedCamera`, value thresholds 50 and 60. -/
theorem processForeground_valThreshold_antitone_witness :
    ∃ m1 m2 : Mat,
      processForeground exampleExternal { exampleRenderer with m_v_threshold := 50 }
        shiftedCamera = .ok (shiftedCamera.setForegroundImage m1) ∧
      processForeground exampleExternal { exampleRenderer with m_v_threshold := 60 }
        shiftedCamera = .ok (shiftedCamera.setForegroundImage m2) ∧
      (∀ i j, m2.px i j = 255 → m1.px i j = 255) ∧
      (∀ i j, m2.px i j ≤ m1.px i j) ∧
      foregroundCount m2 ≤ foregroundCount m1 :=
  processForeground_valThreshold_antitone exampleExternal exampleRenderer shiftedCamera 50 60
    (by decide) rfl rfl ⟨⟨rfl, rfl⟩, ⟨rfl, rfl⟩, ⟨rfl, rfl⟩⟩

theorem adaptiveMorphology_size (m : Mat) :
    (adaptiveMorphology m).rows = m.rows ∧ (adaptiveMorphology m).cols = m.cols := by
  constructor <;> simp only [adaptiveMorphology, medianBlur, erode, dilate]

theorem adaptiveThresholding_size (difference : Mat) :
    (adaptiveThresholding difference).rows = difference.rows ∧
      (adaptiveThresholding difference).cols = difference.cols := by
  constructor <;> simp only [adaptiveThresholding, thresholdOtsu, threshold, bitwise_or]

theorem differenceImage_size (hsv_image : Mat3) (bg : Channels) :
    (differenceImage hsv_image bg).rows = bg.c0.rows ∧
      (differenceImage hsv_image bg).cols = bg.c0.cols := by
  constructor <;> simp only [differenceImage, calculateDifferenceHSV, merge]

theorem adaptiveMorphology_binary (m : Mat) (h : m.binary) : (adaptiveMorphology m).binary :=
  medianBlur_binary _ _ (erode_binary _ _ (dilate_binary _ _ h))

theorem adaptiveThresholding_binary (difference : Mat) :
    (adaptiveThresholding difference).binary :=
  threshold_binary _ _

/-- C4: on a non-empty frame whose background planes have its size, in the fixed and in
the adaptive pipeline and for all parameter values, `processForeground` stores a mask
with the rows and columns of the frame whose pixels are all 0 or 255. -/
theorem processForeground_mask_shape {σ : Type} (ext : External σ) (r : Scene3DRenderer)
    (camera : Camera σ) (hne : camera.frame.empty = false) (hbg : camera.bgFitsFrame) :
    ∃ camera' : Camera σ, processForeground ext r camera = .ok camera' ∧
      camera'.foregroundImage.rows = camera.frame.rows ∧
      camera'.foregroundImage.cols = camera.frame.cols ∧
      ∀ i j, camera'.foregroundImage.px i j = 0 ∨ camera'.foregroundImage.px i j = 255 := by
  cases hauto : r.autoParameters with
  | false =>
    have hproc := processForeground_fixed ext r camera hauto hne hbg
    have hbin := fixedMorphology_binary r _
      (fixedMask_binary r (cvtColor ext.bgr2hsv camera.frame) camera.bgHsvChannels)
    have hsize := fixedMorphology_size r
      (fixedMask r (cvtColor ext.bgr2hsv camera.frame) camera.bgHsvChannels)
    generalize fixedMorphology r
      (fixedMask r (cvtColor ext.bgr2hsv camera.frame) camera.bgHsvChannels) = M
      at hproc hbin hsize
    exact ⟨camera.setForegroundImage M, hproc, hsize.1, hsize.2, hbin⟩
  | true =>
    have hproc := processForeground_adaptive ext r camera hauto hne
    have hbin := adaptiveMorphology_binary _ (adaptiveThresholding_binary
      (differenceImage (cvtColor ext.bgr2hsv camera.frame) camera.bgHsvChannels))
    have hsize := adaptiveMorphology_size (adaptiveThresholding
      (differenceImage (cvtColor ext.bgr2hsv camera.frame) camera.bgHsvChannels))
    rw [(adaptiveThresholding_size _).1, (adaptiveThresholding_size _).2,
      (differenceImage_size _ _).1, (differenceImage_size _ _).2, hbg.1.1, hbg.1.2] at hsize
    generalize adaptiveMorphology (adaptiveThresholding
      (differenceImage (cvtColor ext.bgr2hsv camera.frame) camera.bgHsvChannels)) = M
      at hproc hbin hsize
    exact ⟨camera.setForegroundImage M, hproc, hsize.1, hsize.2, hbin⟩

/-- Witness of C4 on `shiftedCamera`, in the adaptive pipeline. -/
theorem processForeground_mask_shape_witness :
    shiftedCamera.frame.empty = false ∧ shiftedCamera.bgFitsFrame ∧
    ∃ camera' : Camera Unit,
      processForeground exampleExternal { exampleRenderer with autoParameters := true }
        shiftedCamera = .ok camera' ∧
      camera'.foregroundImage.rows = shiftedCamera.frame.rows ∧
      camera'.foregroundImage.cols = shiftedCamera.frame.cols ∧
      ∀ i j, camera'.foregroundImage.px i j = 0 ∨ camera'.foregroundImage.px i j = 255 :=
  ⟨rfl, ⟨⟨rfl, rfl⟩, ⟨rfl, rfl⟩, ⟨rfl, rfl⟩⟩,
    processForeground_mask_shape exampleExternal { exampleRenderer with autoParameters := true }
      shiftedCamera rfl ⟨⟨rfl, rfl⟩, ⟨rfl, rfl⟩, ⟨rfl, rfl⟩⟩⟩

/-! ## The adaptive pipeline on a frame equal to the background -/

theorem scoreTrunc_self (p : Vec3b) : scoreTrunc p p = 0 := by
  have h : squaredDistance p p = 0 := by simp [squaredDistance]
  unfold scoreTrunc
  rw [h]
  simp

theorem nth_eq_px (m : Mat3) (i j : Nat) (hj : j < m.cols) :
    m.nth (i * m.cols + j) = m.px i j := by
  unfold Mat3.nth
  have h1 : (i * m.cols + j) / m.cols = i := by
    rw [Nat.add_comm, Nat.add_mul_div_right _ _ (by omega), Nat.div_eq_of_lt hj, Nat.zero_add]
  have h2 : (i * m.cols + j) % m.cols = j := by
    rw [Nat.add_comm, Nat.add_mul_mod_self_right, Nat.mod_eq_of_lt hj]
  rw [h1, h2]

/-- The score written by `calculateDifferenceHSV` is 0 wherever the two images carry the
same pixel, when both have the width of the output. -/
theorem calculateDifferenceHSV_zero (imageA imageB : Mat3) (rows : Nat) (i j : Nat)
    (hc : imageA.cols = imageB.cols) (hj : j < imageB.cols)
    (hsame : imageA.px i j = imageB.px i j) :
    (calculateDifferenceHSV imageA imageB rows imageB.cols).px i j = 0 := by
  have hA : imageA.nth (i * imageB.cols + j) = imageA.px i j := by
    rw [← hc]; exact nth_eq_px imageA i j (by omega)
  have hB : imageB.nth (i * imageB.cols + j) = imageB.px i j := nth_eq_px imageB i j hj
  simp only [calculateDifferenceHSV]
  rw [hA, hB, hsame, scoreTrunc_self]
  rfl

theorem threshold_px_zero (src : Mat) (t : Int) (i j : Nat) (h : src.px i j = 0)
    (ht : 0 ≤ t) : (threshold src t).px i j = 0 := by
  simp only [threshold, h]
  rw [if_neg]
  simpa using ht

/-- The thresholding stage of the adaptive pipeline maps an all-zero score image to an
all-zero mask, whatever thresholds are selected. -/
theorem adaptiveThresholding_zero (difference : Mat) (i j : Nat)
    (h : difference.px i j = 0) : (adaptiveThresholding difference).px i j = 0 := by
  have h1 : (threshold difference (((getThreshVal_Otsu_8u difference) / 2 : Nat) : Int)).px i j
      = 0 := threshold_px_zero _ _ i j h (Int.natCast_nonneg _)
  have h2 : (bitwise_or (threshold difference
      (((getThreshVal_Otsu_8u difference) / 2 : Nat) : Int)) difference).px i j = 0 := by
    simp only [bitwise_or]
    rw [h1, h]
    rfl
  simp only [adaptiveThresholding, thresholdOtsu]
  exact threshold_px_zero _ _ i j h2 (Int.natCast_nonneg _)

theorem mem_ellipse5_anchor :
    ((2, 2) : Nat × Nat) ∈ (getStructuringElementEllipse5 (2, 2)).elems := by
  decide

theorem erode_anchor_le (src : Mat) (k : Kernel) (i j : Nat) (hmem : k.anchor ∈ k.elems)
    (hi : i < src.rows) (hj : j < src.cols) : (erode src k).px i j ≤ src.px i j :=
  erode_le_px src k i j i j k.anchor hmem hi hj rfl rfl

/-- The refinement of the adaptive pipeline maps an all-zero mask to an all-zero mask. -/
theorem adaptiveMorphology_zero (m : Mat)
    (h : ∀ i j, i < m.rows → j < m.cols → m.px i j = 0)
    (i j : Nat) (hi : i < m.rows) (hj : j < m.cols) : (adaptiveMorphology m).px i j = 0 := by
  have hd : ∀ a b, (dilate m (getStructuringElementEllipse5 (2, 2))).px a b = 0 := by
    intro a b
    apply Nat.eq_zero_of_le_zero
    exact dilate_px_le m (getStructuringElementEllipse5 (2, 2)) a b 0
      (fun e _ a' b' ha' hb' _ _ => (h a' b' ha' hb').le)
  have he : ∀ a b, a < m.rows → b < m.cols →
      (erode (dilate m (getStructuringElementEllipse5 (2, 2)))
        (getStructuringElementEllipse5 (2, 2))).px a b = 0 := by
    intro a b ha hb
    apply Nat.eq_zero_of_le_zero
    have ha' : a < (dilate m (getStructuringElementEllipse5 (2, 2))).rows := by
      simp only [dilate]; exact ha
    have hb' : b < (dilate m (getStructuringElementEllipse5 (2, 2))).cols := by
      simp only [dilate]; exact hb
    exact (erode_anchor_le (dilate m (getStructuringElementEllipse5 (2, 2)))
      (getStructuringElementEllipse5 (2, 2)) a b mem_ellipse5_anchor ha' hb').trans (hd a b).le
  simp only [adaptiveMorphology]
  rcases medianBlur_px_mem (erode (dilate m (getStructuringElementEllipse5 (2, 2)))
      (getStructuringElementEllipse5 (2, 2))) 5 i j with h0 | ⟨a, b, ha, hb, h0⟩
  · exact h0
  · simp only [erode, dilate] at ha hb
    rw [h0]
    exact he a b (by omega) (by omega)

/-- C10: when the HSV pixels of the frame equal the background pixels, the score image
written by `calculateDifferenceHSV` is 0 at every pixel and the mask the adaptive
pipeline stores is 0 at every pixel. -/
theorem processForeground_adaptive_identical {σ : Type} (ext : External σ)
    (r : Scene3DRenderer) (camera : Camera σ) (hauto : r.autoParameters = true)
    (hne : camera.frame.empty = false) (hbg : camera.bgFitsFrame)
    (hsame : ∀ i j, i < camera.frame.rows → j < camera.frame.cols →
      ext.bgr2hsv (camera.frame.px i j) = (merge camera.bgHsvChannels).px i j) :
    (∀ i j, i < camera.frame.rows → j < camera.frame.cols →
      (calculateDifferenceHSV (cvtColor ext.bgr2hsv camera.frame) (merge camera.bgHsvChannels)
        (merge camera.bgHsvChannels).rows (merge camera.bgHsvChannels).cols).px i j = 0) ∧
    ∃ camera' : Camera σ, processForeground ext r camera = .ok camera' ∧
      camera'.foregroundImage.rows = camera.frame.rows ∧
      camera'.foregroundImage.cols = camera.frame.cols ∧
      ∀ i j, i < camera.frame.rows → j < camera.frame.cols →
        camera'.foregroundImage.px i j = 0 := by
  have hcols : (merge camera.bgHsvChannels).cols = camera.frame.cols := hbg.1.2
  have hscore : ∀ i j, i < camera.frame.rows → j < camera.frame.cols →
      (calculateDifferenceHSV (cvtColor ext.bgr2hsv camera.frame) (merge camera.bgHsvChannels)
        (merge camera.bgHsvChannels).rows (merge camera.bgHsvChannels).cols).px i j = 0 :=
    fun i j hi hj => calculateDifferenceHSV_zero (cvtColor ext.bgr2hsv camera.frame)
      (merge camera.bgHsvChannels) (merge camera.bgHsvChannels).rows i j hcols.symm
      (by omega) (hsame i j hi hj)
  refine ⟨hscore, ?_⟩
  have hproc := processForeground_adaptive ext r camera hauto hne
  have hD : differenceImage (cvtColor ext.bgr2hsv camera.frame) camera.bgHsvChannels
      = calculateDifferenceHSV (cvtColor ext.bgr2hsv camera.frame) (merge camera.bgHsvChannels)
          (merge camera.bgHsvChannels).rows (merge camera.bgHsvChannels).cols := rfl
  rw [hD] at hproc
  have hDr : (calculateDifferenceHSV (cvtColor ext.bgr2hsv camera.frame)
      (merge camera.bgHsvChannels) (merge camera.bgHsvChannels).rows
      (merge camera.bgHsvChannels).cols).rows = camera.frame.rows := hbg.1.1
  have hDc : (calculateDifferenceHSV (cvtColor ext.bgr2hsv camera.frame)
      (merge camera.bgHsvChannels) (merge camera.bgHsvChannels).rows
      (merge camera.bgHsvChannels).cols).cols = camera.frame.cols := hbg.1.2
  generalize calculateDifferenceHSV (cvtColor ext.bgr2hsv camera.frame)
    (merge camera.bgHsvChannels) (merge camera.bgHsvChannels).rows
    (merge camera.bgHsvChannels).cols = D at hscore hproc hDr hDc
  have hT : ∀ i j, i < (adaptiveThresholding D).rows → j < (adaptiveThresholding D).cols →
      (adaptiveThresholding D).px i j = 0 := by
    intro i j hi hj
    rw [(adaptiveThresholding_size D).1, hDr] at hi
    rw [(adaptiveThresholding_size D).2, hDc] at hj
    exact adaptiveThresholding_zero D i j (hscore i j hi hj)
  have hTr : (adaptiveThresholding D).rows = camera.frame.rows :=
    (adaptiveThresholding_size D).1.trans hDr
  have hTc : (adaptiveThresholding D).cols = camera.frame.cols :=
    (adaptiveThresholding_size D).2.trans hDc
  generalize adaptiveThresholding D = T at hproc hT hTr hTc
  have hM := adaptiveMorphology_zero T hT
  have hMr : (adaptiveMorphology T).rows = camera.frame.rows :=
    (adaptiveMorphology_size T).1.trans hTr
  have hMc : (adaptiveMorphology T).cols = camera.frame.cols :=
    (adaptiveMorphology_size T).2.trans hTc
  generalize adaptiveMorphology T = M at hproc hM hMr hMc
  exact ⟨camera.setForegroundImage M, hproc, hMr, hMc,
    fun i j hi hj => hM i j (hTr ▸ hi) (hTc ▸ hj)⟩

/-- Witness of C10 on `identicalCamera`. -/
theorem processForeground_adaptive_identical_witness :
    (∀ i j, i < identicalCamera.frame.rows → j < identicalCamera.frame.cols →
      (calculateDifferenceHSV (cvtColor exampleExternal.bgr2hsv identicalCamera.frame)
        (merge identicalCamera.bgHsvChannels) (merge identicalCamera.bgHsvChannels).rows
        (merge identicalCamera.bgHsvChannels).cols).px i j = 0) ∧
    ∃ camera' : Camera Unit,
      processForeground exampleExternal { exampleRenderer with autoParameters := true }
        identicalCamera = .ok camera' ∧
      camera'.foregroundImage.rows = identicalCamera.frame.rows ∧
      camera'.foregroundImage.cols = identicalCamera.frame.cols ∧
      ∀ i j, i < identicalCamera.frame.rows → j < identicalCamera.frame.cols →
        camera'.foregroundImage.px i j = 0 :=
  processForeground_adaptive_identical exampleExternal
    { exampleRenderer with autoParameters := true } identicalCamera rfl rfl
    ⟨⟨rfl, rfl⟩, ⟨rfl, rfl⟩, ⟨rfl, rfl⟩⟩ (fun _ _ _ _ => rfl)

/-! ## The camera loop of `processFrame` -/

theorem fetchFrame_fst {σ : Type} (ext : External σ) (r : Scene3DRenderer) (c c' : Nat)
    (camera : Camera σ) : (fetchFrame ext r c camera).1 = (fetchFrame ext r c' camera).1 := by
  unfold fetchFrame
  split_ifs <;> rfl

theorem processFrameFrom_nil {σ : Type} (ext : External σ) (r : Scene3DRenderer) (c : Nat) :
    processFrameFrom ext r c ([] : List (Camera σ))
      = { cameras := [], calls := [], result := .ok true } := rfl

theorem processFrameFrom_cons_error {σ : Type} (ext : External σ) (r : Scene3DRenderer)
    (c : Nat) (camera : Camera σ) (rest : List (Camera σ)) (e : Failure)
    (h : processForeground ext r (fetchFrame ext r c camera).1 = .error e) :
    processFrameFrom ext r c (camera :: rest)
      = { cameras := (fetchFrame ext r c camera).1 :: rest
          calls := (fetchFrame ext r c camera).2
          result := .error e } := by
  simp only [processFrameFrom, h]

theorem processFrameFrom_cons_ok {σ : Type} (ext : External σ) (r : Scene3DRenderer)
    (c : Nat) (camera camera' : Camera σ) (rest : List (Camera σ))
    (h : processForeground ext r (fetchFrame ext r c camera).1 = .ok camera') :
    processFrameFrom ext r c (camera :: rest)
      = { cameras := camera' :: (processFrameFrom ext r (c + 1) rest).cameras
          calls := (fetchFrame ext r c camera).2
            ++ Call.setForegroundImage c :: (processFrameFrom ext r (c + 1) rest).calls
          result := (processFrameFrom ext r (c + 1) rest).result } := by
  simp only [processFrameFrom, h]

/-- Whether the loop completes does not depend on the number it starts counting from. -/
theorem processFrameFrom_result {σ : Type} (ext : External σ) (r : Scene3DRenderer)
    (cams : List (Camera σ)) :
    ∀ c c', (processFrameFrom ext r c cams).result = (processFrameFrom ext r c' cams).result := by
  induction cams with
  | nil => intro c c'; rfl
  | cons camera rest ih =>
    intro c c'
    cases hp : processForeground ext r (fetchFrame ext r c camera).1 with
    | error e =>
      have hp' := hp
      rw [fetchFrame_fst ext r c c'] at hp'
      rw [processFrameFrom_cons_error ext r c camera rest e hp,
        processFrameFrom_cons_error ext r c' camera rest e hp']
    | ok camera' =>
      have hp' := hp
      rw [fetchFrame_fst ext r c c'] at hp'
      rw [processFrameFrom_cons_ok ext r c camera camera' rest hp,
        processFrameFrom_cons_ok ext r c' camera camera' rest hp']
      exact ih (c + 1) (c' + 1)

/-- After a prefix of cameras on which the loop completes, the loop continues on the
remaining cameras as if started there. -/
theorem processFrameFrom_append {σ : Type} (ext : External σ) (r : Scene3DRenderer)
    (pre rest : List (Camera σ)) :
    ∀ c, (processFrameFrom ext r c pre).result = .ok true →
      (processFrameFrom ext r c (pre ++ rest)).cameras
        = (processFrameFrom ext r c pre).cameras
          ++ (processFrameFrom ext r (c + pre.length) rest).cameras ∧
      (processFrameFrom ext r c (pre ++ rest)).calls
        = (processFrameFrom ext r c pre).calls
          ++ (processFrameFrom ext r (c + pre.length) rest).calls ∧
      (processFrameFrom ext r c (pre ++ rest)).result
        = (processFrameFrom ext r (c + pre.length) rest).result := by
  induction pre with
  | nil => intro c _; simp [processFrameFrom_nil]
  | cons camera pre ih =>
    intro c h
    cases hp : processForeground ext r (fetchFrame ext r c camera).1 with
    | error e =>
      rw [processFrameFrom_cons_error ext r c camera pre e hp] at h
      simp at h
    | ok camera' =>
      rw [processFrameFrom_cons_ok ext r c camera camera' pre hp] at h
      obtain ⟨h1, h2, h3⟩ := ih (c + 1) h
      have hlen : c + (camera :: pre).length = c + 1 + pre.length := by
        simp only [List.length_cons]; omega
      rw [List.cons_append, processFrameFrom_cons_ok ext r c camera camera' (pre ++ rest) hp,
        processFrameFrom_cons_ok ext r c camera camera' pre hp, hlen]
      simp only [h1, h2, h3, List.cons_append, List.append_assoc, and_self]

/-- A successful `processForeground` changes nothing of the camera but its mask. -/
theorem processForeground_frame {σ : Type} (ext : External σ) (r : Scene3DRenderer)
    (camera camera' : Camera σ) (h : processForeground ext r camera = .ok camera') :
    camera'.frame = camera.frame ∧ camera'.video = camera.video ∧
      camera'.bgHsvChannels = camera.bgHsvChannels := by
  unfold processForeground at h
  split_ifs at h
  · cases hfs : fixedSubtraction r (cvtColor ext.bgr2hsv camera.frame) camera.bgHsvChannels with
    | error e => simp only [hfs] at h; cases h
    | ok foreground => simp only [hfs] at h; cases h; exact ⟨rfl, rfl, rfl⟩
  · cases h; exact ⟨rfl, rfl, rfl⟩

theorem fetchFrame_same_index {σ : Type} (ext : External σ) (r : Scene3DRenderer) (c : Nat)
    (camera : Camera σ) (h : r.m_current_frame = r.m_previous_frame) :
    fetchFrame ext r c camera = (camera, []) := by
  unfold fetchFrame
  rw [if_neg (by omega), if_neg (by simpa using h)]

theorem processFrameFrom_same_index {σ : Type} (ext : External σ) (r : Scene3DRenderer)
    (h : r.m_current_frame = r.m_previous_frame) (cams : List (Camera σ)) :
    ∀ c, (∀ call ∈ (processFrameFrom ext r c cams).calls,
        ∃ c', call = Call.setForegroundImage c') ∧
      (processFrameFrom ext r c cams).cameras.map (fun camera => camera.frame)
        = cams.map (fun camera => camera.frame) ∧
      ((processFrameFrom ext r c cams).result = .ok true →
        (processFrameFrom ext r c cams).calls
          = (List.range' c cams.length).map Call.setForegroundImage) := by
  induction cams with
  | nil => intro c; simp [processFrameFrom_nil]
  | cons camera rest ih =>
    intro c
    have hf := fetchFrame_same_index ext r c camera h
    cases hp : processForeground ext r (fetchFrame ext r c camera).1 with
    | error e =>
      rw [processFrameFrom_cons_error ext r c camera rest e hp, hf]
      simp
    | ok camera' =>
      obtain ⟨h1, h2, h3⟩ := ih (c + 1)
      have hfr := (processForeground_frame ext r _ camera' hp).1
      rw [hf] at hfr
      rw [processFrameFrom_cons_ok ext r c camera camera' rest hp, hf]
      refine ⟨?_, ?_, ?_⟩
      · intro call hc
        simp only [List.nil_append, List.mem_cons] at hc
        rcases hc with hc | hc
        · exact ⟨c, hc⟩
        · exact h1 call hc
      · simp only [List.map_cons, h2, hfr]
      · intro hres
        simp only [List.nil_append, List.length_cons, List.range'_succ, List.map_cons, h3 hres]

/-- C2, as amended: when `m_current_frame = m_previous_frame`, `processFrame` calls neither
`advanceVideoFrame` nor `getVideoFrame` on any camera and leaves every frame as it is, but
it still runs `processForeground`: every call it makes is a `setForegroundImage`, and in
a run that completes there is one for every camera, in order. -/
theorem processFrame_same_index {σ : Type} (ext : External σ) (r : Scene3DRenderer)
    (cams : List (Camera σ)) (h : r.m_current_frame = r.m_previous_frame) :
    (∀ call ∈ (processFrame ext r cams).calls, ∃ c, call = Call.setForegroundImage c) ∧
    (processFrame ext r cams).cameras.map (fun camera => camera.frame)
      = cams.map (fun camera => camera.frame) ∧
    ((processFrame ext r cams).result = .ok true →
      (processFrame ext r cams).calls
        = (List.range cams.length).map Call.setForegroundImage) := by
  rw [List.range_eq_range']
  exact processFrameFrom_same_index ext r h cams 0

/-- Witness of the amended C2: two cameras, frame 5 after frame 5; the run completes and
its calls are `setForegroundImage` on camera 0, then on camera 1. -/
theorem processFrame_same_index_witness :
    pausedRenderer.m_current_frame = pausedRenderer.m_previous_frame ∧
    (processFrame exampleExternal pausedRenderer
        [shiftedCamera, identicalCamera]).result = .ok true ∧
    (∀ call ∈ (processFrame exampleExternal pausedRenderer
        [shiftedCamera, identicalCamera]).calls, ∃ c, call = Call.setForegroundImage c) ∧
    (processFrame exampleExternal pausedRenderer
        [shiftedCamera, identicalCamera]).cameras.map (fun camera => camera.frame)
      = [shiftedCamera, identicalCamera].map (fun camera => camera.frame) ∧
    (processFrame exampleExternal pausedRenderer [shiftedCamera, identicalCamera]).calls
      = (List.range [shiftedCamera, identicalCamera].length).map Call.setForegroundImage :=
  ⟨rfl, rfl,
    (processFrame_same_index exampleExternal pausedRenderer
      [shiftedCamera, identicalCamera] rfl).1,
    (processFrame_same_index exampleExternal pausedRenderer
      [shiftedCamera, identicalCamera] rfl).2.1,
    (processFrame_same_index exampleExternal pausedRenderer
      [shiftedCamera, identicalCamera] rfl).2.2 rfl⟩

/-- Counterexample to C2 as stated: invoked a second time with current = previous = 5,
`processFrame` calls `setForegroundImage` on camera 0 again; and invoked twice in a row
on frame 0 after frame -1, its second run calls `advanceVideoFrame` on camera 0 again. -/
theorem processFrame_second_run_writes_mask :
    Call.setForegroundImage 0 ∈
      (processFrame exampleExternal pausedRenderer
        (processFrame exampleExternal pausedRenderer [shiftedCamera]).cameras).calls ∧
    Call.advanceVideoFrame 0 ∈
      (processFrame exampleExternal exampleRenderer
        (processFrame exampleExternal exampleRenderer [shiftedCamera]).cameras).calls := by
  decide

/-- C9, as amended: `processFrame` stops at the first camera whose fetched frame is empty,
with the assertion failure and no returned flag: the cameras before it have been
processed, the failing camera is left as the fetch left it, the cameras after it are
neither fetched nor segmented; and `processFrame` never returns false. -/
theorem processFrame_stops_at_empty_frame {σ : Type} (ext : External σ)
    (r : Scene3DRenderer) (pre : List (Camera σ)) (camera : Camera σ)
    (post : List (Camera σ)) (hpre : (processFrame ext r pre).result = .ok true)
    (hempty : (fetchFrame ext r pre.length camera).1.frame.empty = true) :
    (processFrame ext r (pre ++ camera :: post)).result = .error .emptyFrame ∧
    (processFrame ext r (pre ++ camera :: post)).cameras
      = (processFrame ext r pre).cameras ++ (fetchFrame ext r pre.length camera).1 :: post ∧
    (processFrame ext r (pre ++ camera :: post)).calls
      = (processFrame ext r pre).calls ++ (fetchFrame ext r pre.length camera).2 ∧
    ∀ cams : List (Camera σ), (processFrame ext r cams).result ≠ .ok false := by
  have hp : processForeground ext r (fetchFrame ext r pre.length camera).1
      = .error .emptyFrame := by
    unfold processForeground
    rw [if_pos hempty]
  unfold processFrame at hpre ⊢
  obtain ⟨h1, h2, h3⟩ := processFrameFrom_append ext r pre (camera :: post) 0 hpre
  rw [Nat.zero_add,
    processFrameFrom_cons_error ext r pre.length camera post Failure.emptyFrame hp] at h1 h2 h3
  refine ⟨h3, h1, h2, ?_⟩
  intro cams
  generalize 0 = c
  induction cams generalizing c with
  | nil => simp [processFrameFrom_nil]
  | cons cam rest ih =>
    cases hq : processForeground ext r (fetchFrame ext r c cam).1 with
    | error e =>
      rw [processFrameFrom_cons_error ext r c cam rest e hq]
      simp
    | ok cam' =>
      rw [processFrameFrom_cons_ok ext r c cam cam' rest hq]
      exact ih (c + 1)

/-- Witness of the amended C9: an empty frame on the second of three cameras. -/
theorem processFrame_stops_at_empty_frame_witness :
    (processFrame exampleExternal exampleRenderer [shiftedCamera]).result = .ok true ∧
    (fetchFrame exampleExternal exampleRenderer [shiftedCamera].length
      emptyCamera).1.frame.empty = true ∧
    (processFrame exampleExternal exampleRenderer
      ([shiftedCamera] ++ emptyCamera :: [identicalCamera])).result = .error .emptyFrame ∧
    (processFrame exampleExternal exampleRenderer
      ([shiftedCamera] ++ emptyCamera :: [identicalCamera])).cameras
      = (processFrame exampleExternal exampleRenderer [shiftedCamera]).cameras
        ++ (fetchFrame exampleExternal exampleRenderer [shiftedCamera].length emptyCamera).1
          :: [identicalCamera] ∧
    (processFrame exampleExternal exampleRenderer
      ([shiftedCamera] ++ emptyCamera :: [identicalCamera])).calls
      = (processFrame exampleExternal exampleRenderer [shiftedCamera]).calls
        ++ (fetchFrame exampleExternal exampleRenderer [shiftedCamera].length emptyCamera).2 ∧
    ∀ cams : List (Camera Unit),
      (processFrame exampleExternal exampleRenderer cams).result ≠ .ok false :=
  ⟨rfl, rfl, processFrame_stops_at_empty_frame exampleExternal exampleRenderer
    [shiftedCamera] emptyCamera [identicalCamera] rfl rfl⟩

/-- Counterexample to C9 as stated: with an empty frame on the first of two cameras,
`processFrame` ends in the assertion failure instead of returning false, and
`setForegroundImage` is never called on the second camera. -/
theorem processFrame_empty_frame_aborts :
    (processFrame exampleExternal exampleRenderer [emptyCamera, shiftedCamera]).result
      = .error .emptyFrame ∧
    (processFrame exampleExternal exampleRenderer [emptyCamera, shiftedCamera]).result
      ≠ .ok false ∧
    Call.setForegroundImage 1 ∉
      (processFrame exampleExternal exampleRenderer [emptyCamera, shiftedCamera]).calls := by
  refine ⟨rfl, ?_, by decide⟩
  intro h
  cases h

/-! ## The automatic threshold -/

theorem otsuStep_max_val (src : Mat) (mu scale : ℚ) (st : OtsuState) (i : Nat) :
    (otsuStep src mu scale st i).max_val = st.max_val ∨
      (otsuStep src mu scale st i).max_val = i := by
  unfold otsuStep
  simp only
  split_ifs
  · left; rfl
  · right; rfl
  · left; rfl

theorem otsuLoop_le (src : Mat) (mu scale : ℚ) (b : Nat) (l : List Nat)
    (hl : ∀ i ∈ l, i ≤ b) :
    ∀ st : OtsuState, st.max_val ≤ b → otsuLoop src mu scale l st ≤ b := by
  induction l with
  | nil => intro st h; simpa [otsuLoop] using h
  | cons i t ih =>
    intro st h
    simp only [otsuLoop]
    apply ih (fun j hj => hl j (List.mem_cons_of_mem _ hj))
    rcases otsuStep_max_val src mu scale st i with h' | h'
    · rw [h']; exact h
    · rw [h']; exact hl i (List.mem_cons_self _ _)

theorem getThreshVal_Otsu_8u_le (src : Mat) : getThreshVal_Otsu_8u src ≤ 255 := by
  unfold getThreshVal_Otsu_8u
  exact otsuLoop_le src _ _ 255 (List.range 256)
    (fun i hi => Nat.le_of_lt_succ (List.mem_range.1 hi)) _ (Nat.zero_le _)

/-- C11: for every score image the threshold selected by Otsu's method, the `thresh` of
the adaptive pipeline, lies in 0..255, and the half threshold `thresh * 0.5` in
0..127.5. -/
theorem thresholdOtsu_bounds (difference : Mat) :
    0 ≤ (thresholdOtsu difference).1 ∧ (thresholdOtsu difference).1 ≤ 255 ∧
    0 ≤ ((thresholdOtsu difference).1 : ℚ) * (1 / 2) ∧
    ((thresholdOtsu difference).1 : ℚ) * (1 / 2) ≤ 255 / 2 := by
  have h : (thresholdOtsu difference).1 ≤ 255 := getThreshVal_Otsu_8u_le difference
  have hq : ((thresholdOtsu difference).1 : ℚ) ≤ 255 := by exact_mod_cast h
  refine ⟨Nat.zero_le _, h, ?_, ?_⟩
  · positivity
  · linarith

/-! ## View switching -/

/-- C12: whatever the state before, `setTopView` leaves eye = (0, 0, 10000), centre =
(0, 0, 0), up = (0, 1, 0), current camera -1 and the camera-view flag false, and applying
it twice gives the same whole state as applying it once. -/
theorem setTopView_fixed_and_idempotent (s : ViewState) :
    (setTopView s).m_arcball_eye = { x := 0, y := 0, z := 10000 } ∧
    (setTopView s).m_arcball_centre = { x := 0, y := 0, z := 0 } ∧
    (setTopView s).m_arcball_up = { x := 0, y := 1, z := 0 } ∧
    (setTopView s).m_current_camera = -1 ∧
    (setTopView s).m_camera_view = false ∧
    setTopView (setTopView s) = setTopView s := by
  refine ⟨rfl, rfl, rfl, rfl, ?_, ?_⟩
  · by_cases h : s.m_current_camera = -1 <;> simp [setTopView, h]
  · by_cases h : s.m_current_camera = -1 <;> simp [setTopView, h]

theorem setCamera_same (planes : List vec) (s : ViewState) (id : Int)
    (hid : id = s.m_current_camera) :
    setCamera planes s id = some { s with m_camera_view := true } := by
  simp [setCamera, hid]

theorem setCamera_other (planes : List vec) (s : ViewState) (id : Int) (plane0 : vec)
    (hne : id ≠ s.m_current_camera) (h0 : 0 ≤ id)
    (hget : planes[id.toNat]? = some plane0) :
    setCamera planes s id = some
      { m_camera_view := true, m_current_camera := id
        m_previous_camera := s.m_current_camera
        m_arcball_eye := plane0, m_arcball_centre := s.m_arcball_centre
        m_arcball_up := { x := 0, y := 0, z := 1 } } := by
  have hne' : ¬ s.m_current_camera = id := fun h => hne h.symm
  simp [setCamera, hne', h0, hget]

theorem get?_of_valid (planes : List vec) (id : Int) (h0 : 0 ≤ id)
    (hlt : id < (planes.length : Int)) : ∃ plane0, planes[id.toNat]? = some plane0 := by
  have h : id.toNat < planes.length := by omega
  exact ⟨planes[id.toNat], List.getElem?_eq_getElem h⟩

/-- What a successful `setCamera` leaves: the flag is set, the camera is current, and the
centre is the one held before. -/
theorem setCamera_result (planes : List vec) (s s' : ViewState) (id : Int)
    (h : setCamera planes s id = some s') :
    s'.m_camera_view = true ∧ s'.m_current_camera = id ∧
      s'.m_arcball_centre = s.m_arcball_centre ∧ (id ≠ s.m_current_camera → 0 ≤ id) := by
  by_cases hid : id = s.m_current_camera
  · rw [setCamera_same planes s id hid] at h
    cases h
    exact ⟨rfl, hid.symm, rfl, fun h => absurd hid h⟩
  · have hne' : ¬ s.m_current_camera = id := fun h => hid h.symm
    by_cases h0 : 0 ≤ id
    · cases hget : planes[id.toNat]? with
      | none => simp [setCamera, hne', h0, hget] at h
      | some plane0 =>
        rw [setCamera_other planes s id plane0 hid h0 hget] at h
        cases h
        exact ⟨rfl, rfl, rfl, fun _ => h0⟩
    · simp [setCamera, hne', h0] at h

theorem setTopView_camera_view (s : ViewState) : (setTopView s).m_camera_view = false := by
  by_cases h : s.m_current_camera = -1 <;> simp [setTopView, h]

theorem setCamera_valid (planes : List vec) (s : ViewState) (id : Int) (h0 : 0 ≤ id)
    (hlt : id < (planes.length : Int)) : ∃ s', setCamera planes s id = some s' := by
  by_cases hid : id = s.m_current_camera
  · exact ⟨_, setCamera_same planes s id hid⟩
  · obtain ⟨plane0, hget⟩ := get?_of_valid planes id h0 hlt
    exact ⟨_, setCamera_other planes s id plane0 hid h0 hget⟩

theorem runView_invariant (planes : List vec) (ops : List ViewOp)
    (hvalid : ∀ op ∈ ops, op.valid planes.length) :
    ∀ s0 : ViewState, (s0.m_camera_view = true ↔ s0.m_current_camera ≠ -1) →
      ∃ s, runView planes ops s0 = some s ∧
        (s.m_camera_view = true ↔ s.m_current_camera ≠ -1) := by
  induction ops with
  | nil => intro s0 h0; exact ⟨s0, rfl, h0⟩
  | cons op ops ih =>
    intro s0 _
    have hops : ∀ op' ∈ ops, op'.valid planes.length :=
      fun op' h => hvalid op' (List.mem_cons_of_mem _ h)
    cases op with
    | setCamera id =>
      have hv : 0 ≤ id ∧ id < (planes.length : Int) := hvalid _ (List.mem_cons_self _ _)
      obtain ⟨s', hs'⟩ := setCamera_valid planes s0 id hv.1 hv.2
      obtain ⟨hflag, hcur, -, -⟩ := setCamera_result planes s0 s' id hs'
      have hinv : s'.m_camera_view = true ↔ s'.m_current_camera ≠ -1 := by
        rw [hflag, hcur]
        constructor
        · intro _; omega
        · intro _; rfl
      obtain ⟨s, hs, hi⟩ := ih hops s' hinv
      exact ⟨s, by simp only [runView, hs', hs], hi⟩
    | setTopView =>
      have hinv : (setTopView s0).m_camera_view = true ↔ (setTopView s0).m_current_camera ≠ -1 := by
        rw [setTopView_camera_view]
        constructor
        · intro h; cases h
        · intro h; exact absurd rfl h
      obtain ⟨s, hs, hi⟩ := ih hops (setTopView s0) hinv
      exact ⟨s, by simp only [runView, hs], hi⟩

/-- C14: in every state reached from the constructed state by a sequence of
`setCamera(id)` with 0 <= id < number of cameras and `setTopView()`, the camera-view flag
is true if and only if the current camera is not the free-view value -1; every such
sequence runs to its end. -/
theorem runView_view_type_invariant (planes : List vec) (ops : List ViewOp)
    (hvalid : ∀ op ∈ ops, op.valid planes.length) :
    ∃ s, runView planes ops constructedView = some s ∧
      (s.m_camera_view = true ↔ s.m_current_camera ≠ -1) :=
  runView_invariant planes ops hvalid constructedView (by decide)

/-- Witness of C14: camera 2, top view, camera 0, camera 0 again, over four cameras. -/
theorem runView_view_type_invariant_witness :
    (∀ op ∈ [ViewOp.setCamera 2, ViewOp.setTopView, ViewOp.setCamera 0, ViewOp.setCamera 0],
      op.valid examplePlanes.length) ∧
    ∃ s, runView examplePlanes
        [ViewOp.setCamera 2, ViewOp.setTopView, ViewOp.setCamera 0, ViewOp.setCamera 0]
        constructedView = some s ∧
      (s.m_camera_view = true ↔ s.m_current_camera ≠ -1) :=
  ⟨by simp [ViewOp.valid, examplePlanes],
    runView_view_type_invariant examplePlanes
      [ViewOp.setCamera 2, ViewOp.setTopView, ViewOp.setCamera 0, ViewOp.setCamera 0]
      (by simp [ViewOp.valid, examplePlanes])⟩

theorem runView_centre (planes : List vec) (ops : List ViewOp) :
    ∀ s0 s : ViewState, s0.m_arcball_centre = { x := 0, y := 0, z := 0 } →
      runView planes ops s0 = some s → s.m_arcball_centre = { x := 0, y := 0, z := 0 } := by
  induction ops with
  | nil =>
    intro s0 s h0 h
    simp only [runView] at h
    cases h
    exact h0
  | cons op ops ih =>
    intro s0 s h0 h
    cases op with
    | setCamera id =>
      cases hs' : setCamera planes s0 id with
      | none => simp only [runView, hs'] at h; cases h
      | some s' =>
        simp only [runView, hs'] at h
        exact ih s' s ((setCamera_result planes s0 s' id hs').2.2.1.trans h0) h
    | setTopView =>
      simp only [runView] at h
      exact ih (setTopView s0) s rfl h

/-- C15: in every state reached from the constructed state through `setCamera` and
`setTopView`, `setCamera(id)` with `id` one of the cameras and other than the current
camera leaves eye = that camera's position, centre = (0, 0, 0) and up = (0, 0, 1). The
triple is determined by the selected camera alone: putting any other eye and up vector in
place of the ones held before the call gives the same resulting state, and the call made in
any other reached state gives the same triple. -/
theorem setCamera_switch (planes : List vec) (ops : List ViewOp) (s : ViewState) (id : Int)
    (hreach : runView planes ops constructedView = some s)
    (hne : id ≠ s.m_current_camera) (h0 : 0 ≤ id) (hlt : id < (planes.length : Int)) :
    ∃ plane0 s', planes[id.toNat]? = some plane0 ∧ setCamera planes s id = some s' ∧
      s'.m_arcball_eye = plane0 ∧
      s'.m_arcball_centre = { x := 0, y := 0, z := 0 } ∧
      s'.m_arcball_up = { x := 0, y := 0, z := 1 } ∧
      (∀ e u : vec,
        setCamera planes { s with m_arcball_eye := e, m_arcball_up := u } id = some s') ∧
      (∀ ops2 t, runView planes ops2 constructedView = some t → id ≠ t.m_current_camera →
        ∃ t', setCamera planes t id = some t' ∧
          t'.m_arcball_eye = s'.m_arcball_eye ∧
          t'.m_arcball_centre = s'.m_arcball_centre ∧
          t'.m_arcball_up = s'.m_arcball_up) := by
  obtain ⟨plane0, hget⟩ := get?_of_valid planes id h0 hlt
  have hc : s.m_arcball_centre = { x := 0, y := 0, z := 0 } :=
    runView_centre planes ops constructedView s rfl hreach
  refine ⟨plane0, _, hget, setCamera_other planes s id plane0 hne h0 hget, rfl, hc, rfl,
    ?_, ?_⟩
  · intro e u
    exact setCamera_other planes { s with m_arcball_eye := e, m_arcball_up := u } id plane0
      hne h0 hget
  · intro ops2 t ht hnet
    have hct : t.m_arcball_centre = { x := 0, y := 0, z := 0 } :=
      runView_centre planes ops2 constructedView t rfl ht
    exact ⟨_, setCamera_other planes t id plane0 hnet h0 hget, rfl, hct.trans hc.symm, rfl⟩

/-- Witness of C15: camera 1 selected after camera 2 was selected in the constructed
state. -/
theorem setCamera_switch_witness :
    runView examplePlanes [ViewOp.setCamera 2] constructedView
      = some { m_camera_view := true, m_current_camera := 2, m_previous_camera := -1
               m_arcball_eye := { x := -1000, y := 0, z := 500 }
               m_arcball_centre := { x := 0, y := 0, z := 0 }
               m_arcball_up := { x := 0, y := 0, z := 1 } } ∧
    ∃ s', setCamera examplePlanes
        { m_camera_view := true, m_current_camera := 2, m_previous_camera := -1
          m_arcball_eye := { x := -1000, y := 0, z := 500 }
          m_arcball_centre := { x := 0, y := 0, z := 0 }
          m_arcball_up := { x := 0, y := 0, z := 1 } } 1 = some s' ∧
      s'.m_arcball_eye = { x := 0, y := 1500, z := 500 } ∧
      s'.m_arcball_centre = { x := 0, y := 0, z := 0 } ∧
      s'.m_arcball_up = { x := 0, y := 0, z := 1 } := by
  refine ⟨by decide, ?_⟩
  obtain ⟨plane0, s', hget, hs', he, hcen, hup, -, -⟩ :=
    setCamera_switch examplePlanes [ViewOp.setCamera 2]
      { m_camera_view := true, m_current_camera := 2, m_previous_camera := -1
        m_arcball_eye := { x := -1000, y := 0, z := 500 }
        m_arcball_centre := { x := 0, y := 0, z := 0 }
        m_arcball_up := { x := 0, y := 0, z := 1 } } 1 (by decide) (by decide) (by decide)
      (by decide)
  have hp : plane0 = { x := 0, y := 1500, z := 500 } := by
    have h1 : examplePlanes[(1 : Int).toNat]? = some { x := 0, y := 1500, z := 500 } := by
      decide
    rw [h1] at hget
    exact (Option.some.inj hget).symm
  exact ⟨s', hs', he.trans hp, hcen, hup⟩

/-! ## The floor grid -/

/-- With a positive step, the edge loop started `k` steps below its bound ends within
`k + 2` tests of its condition and pushes the `k + 1` points up to the bound. -/
theorem edgeLoop_eq (mk : Int → Point3i) (size stop : Int) (hsize : 0 < size) :
    ∀ (k fuel : Nat), k + 2 ≤ fuel →
      edgeLoop mk size stop fuel (stop - k * size)
        = some ((List.range (k + 1)).map fun j : Nat => mk (stop - k * size + j * size)) := by
  intro k
  induction k with
  | zero =>
    intro fuel hf
    obtain ⟨f, rfl⟩ : ∃ f, fuel = f + 2 := ⟨fuel - 2, by omega⟩
    have h1 : ¬ (stop + size ≤ stop) := by omega
    simp [edgeLoop, h1, List.range_succ]
  | succ k ih =>
    intro fuel hf
    obtain ⟨f, rfl⟩ : ∃ f, fuel = f + 1 := ⟨fuel - 1, by omega⟩
    have hle : stop - ((k + 1 : Nat) : Int) * size ≤ stop := by
      have : 0 ≤ ((k + 1 : Nat) : Int) * size := by positivity
      omega
    have hnext : stop - ((k + 1 : Nat) : Int) * size + size = stop - (k : Int) * size := by
      push_cast; ring
    rw [edgeLoop, if_pos hle, hnext, ih f (by omega)]
    simp only
    rw [List.range_succ_eq_map (k + 1), List.map_cons, List.map_map]
    congr 2
    · congr 1
      push_cast; ring
    · apply List.map_congr_left
      intro j _
      simp only [Function.comp]
      congr 1
      push_cast; ring

/-- With step 0 the edge loop started at or below its bound never ends. -/
theorem edgeLoop_zero_step (mk : Int → Point3i) (stop t : Int) (ht : t ≤ stop) :
    ∀ fuel : Nat, edgeLoop mk 0 stop fuel t = none := by
  intro fuel
  induction fuel with
  | zero => rfl
  | succ f ih => rw [edgeLoop, if_pos ht, Int.add_zero, ih]

/-- The edge from `-size * n` to `size * n` in steps of `size`. -/
theorem edgeLoop_edge (mk : Int → Point3i) (size : Int) (n fuel : Nat) (hsize : 0 < size)
    (hf : 2 * n + 2 ≤ fuel) :
    edgeLoop mk size (size * n) fuel (-size * n)
      = some ((List.range (2 * n + 1)).map fun j : Nat => mk (-size * n + j * size)) := by
  have hstart : -size * (n : Int) = size * n - ((2 * n : Nat) : Int) * size := by
    push_cast; ring
  have h := edgeLoop_eq mk size (size * n) hsize (2 * n) fuel hf
  rw [← hstart] at h
  exact h

theorem tdiv_nonpos_of_nonpos (a b : Int) (ha : a ≤ 0) (hb : 0 ≤ b) : a.tdiv b ≤ 0 := by
  have h := Int.tdiv_nonneg (Int.neg_nonneg_of_nonpos ha) hb
  rw [Int.neg_tdiv] at h
  omega

/-- Under `w / (2 * n) ≥ 1` the step `(w / 2) / n` of the code equals `w / (2 * n)`. -/
theorem size_eq (w : Int) (n : Nat) (h : 1 ≤ w.tdiv (2 * n)) :
    (w.tdiv 2).tdiv n = w.tdiv (2 * n) := by
  have hw : 0 ≤ w := by
    by_contra hneg
    have := tdiv_nonpos_of_nonpos w (2 * n) (by omega) (by positivity)
    omega
  rw [Int.tdiv_eq_ediv hw (by norm_num), Int.tdiv_eq_ediv (by positivity) (by positivity),
    Int.tdiv_eq_ediv hw (by positivity)]
  lift w to ℕ using hw
  norm_cast
  exact Nat.div_div_eq_div_mul w 2 n

/-- The grid `createFloorGrid` builds when its step is positive and the fuel suffices. -/
theorem createFloorGrid_eq (fuel : Nat) (w : Int) (n : Nat)
    (hsize : 0 < (w.tdiv 2).tdiv n) (hf : 2 * n + 2 ≤ fuel) :
    createFloorGrid fuel w n = some
      [(List.range (2 * n + 1)).map fun j : Nat =>
          (⟨-(w.tdiv 2).tdiv n * n, -(w.tdiv 2).tdiv n * n + j * (w.tdiv 2).tdiv n, 3⟩ : Point3i),
       (List.range (2 * n + 1)).map fun j : Nat =>
          (⟨-(w.tdiv 2).tdiv n * n + j * (w.tdiv 2).tdiv n, (w.tdiv 2).tdiv n * n, 3⟩ : Point3i),
       (List.range (2 * n + 1)).map fun j : Nat =>
          (⟨(w.tdiv 2).tdiv n * n, -(w.tdiv 2).tdiv n * n + j * (w.tdiv 2).tdiv n, 3⟩ : Point3i),
       (List.range (2 * n + 1)).map fun j : Nat =>
          (⟨-(w.tdiv 2).tdiv n * n + j * (w.tdiv 2).tdiv n, -(w.tdiv 2).tdiv n * n, 3⟩ :
            Point3i)] := by
  simp only [createFloorGrid, edgeLoop_edge _ _ n fuel hsize hf]

theorem head?_map_range (f : Nat → Point3i) (m : Nat) :
    ((List.range (m + 1)).map f).head? = some (f 0) := by
  rw [List.range_succ_eq_map]
  rfl

theorem getLast?_map_range (f : Nat → Point3i) (m : Nat) :
    ((List.range (m + 1)).map f).getLast? = some (f m) := by
  rw [List.range_succ, List.map_append, List.map_singleton, List.getLast?_append]
  rfl

theorem getElem?_map_range (f : Nat → Point3i) (m j : Nat) (hj : j < m) :
    ((List.range m).map f)[j]? = some (f j) := by
  rw [List.getElem?_map, List.getElem?_range hj]
  rfl

/-- C16: when `w / (2 * n) ≥ 1` (and the loops are given enough steps), `createFloorGrid`
builds exactly four polylines of `2 * n + 1` points each, all with z = 3; point number `j`
of each lies `j * (w / (2 * n))` along its edge, so consecutive points are `w / (2 * n)`
apart along one axis, which is the step `(w / 2) / n` of the code; the edges lie on
x = -L, y = L, x = L and y = -L with `L = (w / (2 * n)) * n`, and each of the four corners
is an endpoint of exactly two edges. -/
theorem createFloorGrid_square_frame (fuel : Nat) (w : Int) (n : Nat)
    (hsize : 1 ≤ w.tdiv (2 * n)) (hf : 2 * n + 2 ≤ fuel) :
    (w.tdiv 2).tdiv n = w.tdiv (2 * n) ∧
    ∃ edge1 edge2 edge3 edge4 : List Point3i,
      createFloorGrid fuel w n = some [edge1, edge2, edge3, edge4] ∧
      (∀ edge ∈ [edge1, edge2, edge3, edge4], edge.length = 2 * n + 1) ∧
      (∀ edge ∈ [edge1, edge2, edge3, edge4], ∀ p ∈ edge, p.z = 3) ∧
      (∀ j : Nat, j ≤ 2 * n →
        edge1[j]? = some ⟨-(w.tdiv (2 * n) * n),
          -(w.tdiv (2 * n) * n) + j * w.tdiv (2 * n), 3⟩ ∧
        edge2[j]? = some ⟨-(w.tdiv (2 * n) * n) + j * w.tdiv (2 * n),
          w.tdiv (2 * n) * n, 3⟩ ∧
        edge3[j]? = some ⟨w.tdiv (2 * n) * n,
          -(w.tdiv (2 * n) * n) + j * w.tdiv (2 * n), 3⟩ ∧
        edge4[j]? = some ⟨-(w.tdiv (2 * n) * n) + j * w.tdiv (2 * n),
          -(w.tdiv (2 * n) * n), 3⟩) ∧
      (∀ c ∈ [(⟨-(w.tdiv (2 * n) * n), -(w.tdiv (2 * n) * n), 3⟩ : Point3i),
              ⟨-(w.tdiv (2 * n) * n), w.tdiv (2 * n) * n, 3⟩,
              ⟨w.tdiv (2 * n) * n, w.tdiv (2 * n) * n, 3⟩,
              ⟨w.tdiv (2 * n) * n, -(w.tdiv (2 * n) * n), 3⟩],
        ([edge1, edge2, edge3, edge4].filter (isEndpoint c)).length = 2) := by
  have hd := size_eq w n hsize
  refine ⟨hd, ?_⟩
  have hn : 1 ≤ n := by
    rcases Nat.eq_zero_or_pos n with h0 | h0
    · subst h0; simp at hsize
    · exact h0
  have hgrid := createFloorGrid_eq fuel w n (by rw [hd]; omega) hf
  rw [hd] at hgrid
  generalize w.tdiv (2 * n) = d at hsize hgrid ⊢
  have hL : 1 ≤ d * n := by
    have : (1 : Int) ≤ n := by exact_mod_cast hn
    nlinarith
  have e2 : -d * (n : Int) = -(d * n) := by ring
  have hlast : -(d * (n : Int)) + ((2 * n : Nat) : Int) * d = d * n := by push_cast; ring
  rw [e2] at hgrid
  generalize d * (n : Int) = L at hgrid hL hlast ⊢
  have hfirst : -L + ((0 : Nat) : Int) * d = -L := by simp
  have hL1 : -L ≠ L := by omega
  have hL2 : L ≠ -L := by omega
  have h1h := head?_map_range (fun j : Nat => (⟨-L, -L + j * d, 3⟩ : Point3i)) (2 * n)
  have h1l := getLast?_map_range (fun j : Nat => (⟨-L, -L + j * d, 3⟩ : Point3i)) (2 * n)
  have h2h := head?_map_range (fun j : Nat => (⟨-L + j * d, L, 3⟩ : Point3i)) (2 * n)
  have h2l := getLast?_map_range (fun j : Nat => (⟨-L + j * d, L, 3⟩ : Point3i)) (2 * n)
  have h3h := head?_map_range (fun j : Nat => (⟨L, -L + j * d, 3⟩ : Point3i)) (2 * n)
  have h3l := getLast?_map_range (fun j : Nat => (⟨L, -L + j * d, 3⟩ : Point3i)) (2 * n)
  have h4h := head?_map_range (fun j : Nat => (⟨-L + j * d, -L, 3⟩ : Point3i)) (2 * n)
  have h4l := getLast?_map_range (fun j : Nat => (⟨-L + j * d, -L, 3⟩ : Point3i)) (2 * n)
  simp only [hfirst, hlast] at h1h h1l h2h h2l h3h h3l h4h h4l
  refine ⟨_, _, _, _, hgrid, ?_, ?_, ?_, ?_⟩
  · intro edge he
    simp only [List.mem_cons, List.mem_singleton, List.not_mem_nil, or_false] at he
    rcases he with rfl | rfl | rfl | rfl <;> simp
  · intro edge he p hp
    simp only [List.mem_cons, List.mem_singleton, List.not_mem_nil, or_false] at he
    rcases he with rfl | rfl | rfl | rfl <;>
    · obtain ⟨j, -, rfl⟩ := List.mem_map.1 hp
      rfl
  · intro j hj
    have hj' : j < 2 * n + 1 := by omega
    exact ⟨getElem?_map_range _ _ _ hj', getElem?_map_range _ _ _ hj',
      getElem?_map_range _ _ _ hj', getElem?_map_range _ _ _ hj'⟩
  · intro c hc
    simp only [List.mem_cons, List.mem_singleton, List.not_mem_nil, or_false] at hc
    rcases hc with rfl | rfl | rfl | rfl <;>
    · simp only [List.filter, isEndpoint, h1h, h1l, h2h, h2l, h3h, h3l, h4h, h4l]
      simp [hL1, hL2]

/-- Witness of C16: width 2048 and the constructor's 4 divisions. -/
theorem createFloorGrid_square_frame_witness :
    1 ≤ exampleWidth.tdiv (2 * constructedNum) ∧ 2 * constructedNum + 2 ≤ 10 ∧
    (exampleWidth.tdiv 2).tdiv constructedNum = exampleWidth.tdiv (2 * constructedNum) ∧
    ∃ edge1 edge2 edge3 edge4 : List Point3i,
      createFloorGrid 10 exampleWidth constructedNum = some [edge1, edge2, edge3, edge4] ∧
      (∀ edge ∈ [edge1, edge2, edge3, edge4], edge.length = 2 * constructedNum + 1) ∧
      (∀ edge ∈ [edge1, edge2, edge3, edge4], ∀ p ∈ edge, p.z = 3) ∧
      (∀ j : Nat, j ≤ 2 * constructedNum →
        edge1[j]? = some ⟨-(exampleWidth.tdiv (2 * constructedNum) * constructedNum),
          -(exampleWidth.tdiv (2 * constructedNum) * constructedNum) + j * exampleWidth.tdiv (2 * constructedNum), 3⟩ ∧
        edge2[j]? = some ⟨-(exampleWidth.tdiv (2 * constructedNum) * constructedNum) + j * exampleWidth.tdiv (2 * constructedNum),
          exampleWidth.tdiv (2 * constructedNum) * constructedNum, 3⟩ ∧
        edge3[j]? = some ⟨exampleWidth.tdiv (2 * constructedNum) * constructedNum,
          -(exampleWidth.tdiv (2 * constructedNum) * constructedNum) + j * exampleWidth.tdiv (2 * constructedNum), 3⟩ ∧
        edge4[j]? = some ⟨-(exampleWidth.tdiv (2 * constructedNum) * constructedNum) + j * exampleWidth.tdiv (2 * constructedNum),
          -(exampleWidth.tdiv (2 * constructedNum) * constructedNum), 3⟩) ∧
      (∀ c ∈ [(⟨-(exampleWidth.tdiv (2 * constructedNum) * constructedNum), -(exampleWidth.tdiv (2 * constructedNum) * constructedNum), 3⟩ : Point3i),
              ⟨-(exampleWidth.tdiv (2 * constructedNum) * constructedNum), exampleWidth.tdiv (2 * constructedNum) * constructedNum, 3⟩,
              ⟨exampleWidth.tdiv (2 * constructedNum) * constructedNum, exampleWidth.tdiv (2 * constructedNum) * constructedNum, 3⟩,
              ⟨exampleWidth.tdiv (2 * constructedNum) * constructedNum, -(exampleWidth.tdiv (2 * constructedNum) * constructedNum), 3⟩],
        ([edge1, edge2, edge3, edge4].filter (isEndpoint c)).length = 2) :=
  ⟨by decide, by decide,
    createFloorGrid_square_frame 10 exampleWidth constructedNum (by decide) (by decide)⟩

theorem createFloorGrid_zero_step (fuel : Nat) (w : Int) (n : Nat)
    (h : (w.tdiv 2).tdiv n = 0) : createFloorGrid fuel w n = none := by
  have h0 : edgeLoop (fun y => (⟨-(0 : Int) * n, y, 3⟩ : Point3i)) 0 ((0 : Int) * n) fuel
      (-(0 : Int) * n) = none := edgeLoop_zero_step _ _ _ (by simp) fuel
  simp only [createFloorGrid, h, h0]

/-- C19: when the step `size = (w / 2) / m_num` is at least 1, each of the four edge loops
of `createFloorGrid` ends within `2 * m_num + 2` tests of its condition and yields exactly
`2 * m_num + 1` points, the first at coordinate `-size * m_num` and the last at
`size * m_num`; with step 0 the loops never end, whatever the number of steps allowed. -/
theorem createFloorGrid_terminates (fuel : Nat) (w : Int) (m_num : Nat)
    (hsize : 1 ≤ (w.tdiv 2).tdiv m_num) (hf : 2 * m_num + 2 ≤ fuel) :
    (∃ edge1 edge2 edge3 edge4 : List Point3i,
      createFloorGrid fuel w m_num = some [edge1, edge2, edge3, edge4] ∧
      (∀ edge ∈ [edge1, edge2, edge3, edge4], edge.length = 2 * m_num + 1) ∧
      (edge1.head?.map (fun p => p.y) = some (-(w.tdiv 2).tdiv m_num * m_num) ∧
        edge1.getLast?.map (fun p => p.y) = some ((w.tdiv 2).tdiv m_num * m_num)) ∧
      (edge2.head?.map (fun p => p.x) = some (-(w.tdiv 2).tdiv m_num * m_num) ∧
        edge2.getLast?.map (fun p => p.x) = some ((w.tdiv 2).tdiv m_num * m_num)) ∧
      (edge3.head?.map (fun p => p.y) = some (-(w.tdiv 2).tdiv m_num * m_num) ∧
        edge3.getLast?.map (fun p => p.y) = some ((w.tdiv 2).tdiv m_num * m_num)) ∧
      (edge4.head?.map (fun p => p.x) = some (-(w.tdiv 2).tdiv m_num * m_num) ∧
        edge4.getLast?.map (fun p => p.x) = some ((w.tdiv 2).tdiv m_num * m_num))) ∧
    (∀ (fuel' : Nat) (w' : Int), (w'.tdiv 2).tdiv m_num = 0 →
      createFloorGrid fuel' w' m_num = none) := by
  refine ⟨?_, fun fuel' w' h => createFloorGrid_zero_step fuel' w' m_num h⟩
  have hgrid := createFloorGrid_eq fuel w m_num (by omega) hf
  generalize (w.tdiv 2).tdiv m_num = d at hsize hgrid ⊢
  have hfirst : -d * (m_num : Int) + ((0 : Nat) : Int) * d = -d * m_num := by simp
  have hlast : -d * (m_num : Int) + ((2 * m_num : Nat) : Int) * d = d * m_num := by
    push_cast; ring
  refine ⟨_, _, _, _, hgrid, ?_, ?_, ?_, ?_, ?_⟩
  · intro edge he
    simp only [List.mem_cons, List.mem_singleton, List.not_mem_nil, or_false] at he
    rcases he with rfl | rfl | rfl | rfl <;> simp
  all_goals
    rw [head?_map_range, getLast?_map_range]
    simp only [Option.map_some', hfirst, hlast, and_self]

/-- Witness of C19: width 2048 and the constructor's 4 divisions give four edges of 9
points. -/
theorem createFloorGrid_terminates_witness :
    1 ≤ (exampleWidth.tdiv 2).tdiv constructedNum ∧ 2 * constructedNum + 2 ≤ 10 ∧
    ∃ edge1 edge2 edge3 edge4 : List Point3i,
      createFloorGrid 10 exampleWidth constructedNum = some [edge1, edge2, edge3, edge4] ∧
      (∀ edge ∈ [edge1, edge2, edge3, edge4], edge.length = 9) :=
  ⟨by decide, by decide,
    let ⟨e1, e2, e3, e4, h, hl, _⟩ :=
      (createFloorGrid_terminates 10 exampleWidth constructedNum (by decide) (by decide)).1
    ⟨e1, e2, e3, e4, h, hl⟩⟩

/-! ## The score of `calculateDifferenceHSV` -/

/-- C18 fails on the code: for a saturated bright red frame pixel on a black background
pixel the scaling factor is 1 and the value converted to `uchar` is
sqrt(255^2 + 255^2) = 360.6..., truncated 360, outside 0..255. -/
theorem scoreTrunc_red_on_black :
    scalerBase redPixel blackPixel = 1 ∧ squaredDistance redPixel blackPixel = 130050 ∧
    scoreTrunc redPixel blackPixel = 360 ∧ 256 ≤ scoreTrunc redPixel blackPixel := by
  have hs : scalerBase redPixel blackPixel = 1 := by
    norm_num [scalerBase, redPixel, blackPixel]
  have hd : squaredDistance redPixel blackPixel = 130050 := by
    norm_num [squaredDistance, redPixel, blackPixel]
    rfl
  have hsqrt : Nat.sqrt 130050 = 360 := by
    symm
    rw [Nat.eq_sqrt]
    constructor <;> norm_num
  have h : scoreTrunc redPixel blackPixel = 360 := by
    unfold scoreTrunc
    rw [hd, hs, hsqrt]
    apply Nat.findGreatest_eq
    norm_num
  exact ⟨hs, hd, h, by rw [h]; norm_num⟩

theorem scalerBase_achromatic (pixelA pixelB : Vec3b) (hsat : pixelA.c1 = pixelB.c1)
    (hhue : pixelA.c0 = pixelB.c0 ∨ pixelA.c1 = 0) : scalerBase pixelA pixelB = 0 := by
  unfold scalerBase
  simp only [hsat, min_self, sub_self, abs_zero, add_zero]
  rcases hhue with h | h
  · rw [h]; simp
  · rw [← hsat, h]; simp

theorem scoreTrunc_of_scalerBase_zero (pixelA pixelB : Vec3b)
    (h : scalerBase pixelA pixelB = 0) : scoreTrunc pixelA pixelB = 0 := by
  unfold scoreTrunc
  rw [h, Nat.findGreatest_eq_zero_iff]
  intro n hn _
  simp only [ne_eq, OfNat.ofNat_ne_zero, not_false_eq_true, zero_pow, mul_zero, not_le]
  positivity

/-- C20: for two pixels of equal saturation with equal hue or with saturation 0, the
scaling factor of `calculateDifferenceHSV` is exactly 0 and the score written is 0,
whatever the value channels are. -/
theorem calculateDifferenceHSV_achromatic (imageA imageB : Mat3) (rows cols i j : Nat)
    (hsat : (imageA.nth (i * cols + j)).c1 = (imageB.nth (i * cols + j)).c1)
    (hhue : (imageA.nth (i * cols + j)).c0 = (imageB.nth (i * cols + j)).c0 ∨
      (imageA.nth (i * cols + j)).c1 = 0) :
    scalerBase (imageA.nth (i * cols + j)) (imageB.nth (i * cols + j)) = 0 ∧
    (calculateDifferenceHSV imageA imageB rows cols).px i j = 0 := by
  have h := scalerBase_achromatic _ _ hsat hhue
  refine ⟨h, ?_⟩
  simp only [calculateDifferenceHSV, scoreTrunc_of_scalerBase_zero _ _ h]
  rfl

/-- Witness of C20: a grey pixel of value 250 against a grey pixel of value 0. -/
theorem calculateDifferenceHSV_achromatic_witness :
    scalerBase ((Mat3.const 1 1 ⟨0, 0, 250⟩).nth (0 * 1 + 0))
      ((Mat3.const 1 1 ⟨0, 0, 0⟩).nth (0 * 1 + 0)) = 0 ∧
    (calculateDifferenceHSV (Mat3.const 1 1 ⟨0, 0, 250⟩) (Mat3.const 1 1 ⟨0, 0, 0⟩) 1 1).px 0 0
      = 0 :=
  calculateDifferenceHSV_achromatic (Mat3.const 1 1 ⟨0, 0, 250⟩) (Mat3.const 1 1 ⟨0, 0, 0⟩)
    1 1 0 0 rfl (Or.inl rfl)

/-! ## The input of the second automatic threshold -/

theorem lor_255 (d : Nat) (h : d ≤ 255) : 255 ||| d = 255 := by
  apply Nat.eq_of_testBit_eq
  intro i
  rw [Nat.testBit_or]
  have e : (255 : Nat) = 2 ^ 8 - 1 := by norm_num
  rw [e, Nat.testBit_two_pow_sub_one]
  by_cases hi : i < 8
  · simp [hi]
  · have hd : d < 2 ^ i :=
      lt_of_lt_of_le (by omega : d < 2 ^ 8) (Nat.pow_le_pow_right (by norm_num) (by omega))
    simp [hi, Nat.testBit_lt_two_pow hd]

theorem adaptiveUnion_px_eq (difference : Mat) (i j : Nat) (h8 : difference.px i j ≤ 255) :
    (adaptiveUnion difference).px i j =
      (if (thresholdOtsu difference).1 / 2 < difference.px i j then 255
       else difference.px i j) := by
  simp only [adaptiveUnion, bitwise_or, threshold, Nat.cast_lt]
  split_ifs
  · exact lor_255 _ h8
  · exact Nat.zero_or _

theorem unionOfMasks_px_eq (difference : Mat) (i j : Nat) :
    (unionOfMasks difference).px i j =
      (if (thresholdOtsu difference).1 / 2 < difference.px i j then 255 else 0) := by
  simp only [unionOfMasks, bitwise_or, threshold, Nat.cast_lt]
  have hle : (thresholdOtsu difference).1 / 2 ≤ (thresholdOtsu difference).1 :=
    Nat.div_le_self _ _
  split_ifs with h1 h2 h2
  · rfl
  · omega
  · rfl
  · rfl

/-- C17, as amended: the image handed to the second automatic threshold is the bitwise OR
of the half-threshold mask with the score image itself: 255 where the score exceeds
`thresh / 2`, and the score's own value elsewhere. The union of the coarse and the
half-threshold mask is 255 at the same pixels and 0 elsewhere, so the two agree exactly
where the score is 0 or exceeds `thresh / 2`. -/
theorem adaptiveUnion_px (difference : Mat) (i j : Nat) (h8 : difference.px i j ≤ 255) :
    (adaptiveUnion difference).px i j =
      (if (thresholdOtsu difference).1 / 2 < difference.px i j then 255
       else difference.px i j) ∧
    (unionOfMasks difference).px i j =
      (if (thresholdOtsu difference).1 / 2 < difference.px i j then 255 else 0) :=
  ⟨adaptiveUnion_px_eq difference i j h8, unionOfMasks_px_eq difference i j⟩

/-- Witness of the amended C17 on the score image 1, 10, 200. -/
theorem adaptiveUnion_px_witness :
    exampleScore.px 0 0 ≤ 255 ∧
    (adaptiveUnion exampleScore).px 0 0 =
      (if (thresholdOtsu exampleScore).1 / 2 < exampleScore.px 0 0 then 255
       else exampleScore.px 0 0) ∧
    (unionOfMasks exampleScore).px 0 0 =
      (if (thresholdOtsu exampleScore).1 / 2 < exampleScore.px 0 0 then 255 else 0) :=
  ⟨by decide, adaptiveUnion_px exampleScore 0 0 (by decide)⟩

theorem hist_exampleScore (v : Nat) :
    hist exampleScore v = if v = 1 ∨ v = 10 ∨ v = 200 then 1 else 0 := by
  simp only [hist, exampleScore, List.range_succ, List.range_zero]
  by_cases h1 : v = 1
  · subst h1; simp [List.filter]
  · by_cases h2 : v = 10
    · subst h2; simp [List.filter]
    · by_cases h3 : v = 200
      · subst h3; simp [List.filter]
      · have e1 : ¬ (1 = v) := fun h => h1 h.symm
        have e2 : ¬ (10 = v) := fun h => h2 h.symm
        have e3 : ¬ (200 = v) := fun h => h3 h.symm
        simp [List.filter, h1, h2, h3, e1, e2, e3]

set_option maxRecDepth 100000 in
theorem range_split : List.range 256 =
    0 :: 1 :: (List.range' 2 8 ++ 10 :: (List.range' 11 189 ++ 200 :: List.range' 201 55)) := by
  decide

theorem otsuLoop_cons (src : Mat) (mu scale : ℚ) (i : Nat) (rest : List Nat)
    (st : OtsuState) :
    otsuLoop src mu scale (i :: rest) st
      = otsuLoop src mu scale rest (otsuStep src mu scale st i) := by
  rw [otsuLoop]

theorem otsuLoop_stable (src : Mat) (mu scale : ℚ) (st : OtsuState) (l : List Nat)
    (h : ∀ i ∈ l, otsuStep src mu scale st i = st) :
    otsuLoop src mu scale l st = st.max_val := by
  induction l with
  | nil => rw [otsuLoop]
  | cons i t ih =>
    rw [otsuLoop_cons, h i (List.mem_cons_self _ _)]
    exact ih (fun j hj => h j (List.mem_cons_of_mem _ hj))

theorem otsuLoop_append (src : Mat) (mu scale : ℚ) (l1 l2 : List Nat) :
    ∀ st : OtsuState, otsuLoop src mu scale (l1 ++ l2) st
      = otsuLoop src mu scale l2 (l1.foldl (otsuStep src mu scale) st) := by
  induction l1 with
  | nil => intro st; rfl
  | cons i t ih =>
    intro st
    rw [List.cons_append, List.foldl_cons]
    exact ih (otsuStep src mu scale st i)

theorem foldl_otsuStep_stable (src : Mat) (mu scale : ℚ) (st : OtsuState) (l : List Nat)
    (h : ∀ i ∈ l, otsuStep src mu scale st i = st) :
    l.foldl (otsuStep src mu scale) st = st := by
  induction l with
  | nil => rfl
  | cons i t ih =>
    rw [List.foldl_cons, h i (List.mem_cons_self _ _)]
    exact ih (fun j hj => h j (List.mem_cons_of_mem _ hj))

theorem sum_map_eq_zero (f : Nat → ℚ) (l : List Nat) (h : ∀ i ∈ l, f i = 0) :
    (l.map f).sum = 0 := by
  induction l with
  | nil => rfl
  | cons i t ih =>
    rw [List.map_cons, List.sum_cons, h i (List.mem_cons_self _ _),
      ih (fun j hj => h j (List.mem_cons_of_mem _ hj)), add_zero]

theorem hist_exampleScore_zero (v : Nat) (h1 : v ≠ 1) (h2 : v ≠ 10) (h3 : v ≠ 200) :
    hist exampleScore v = 0 := by
  rw [hist_exampleScore, if_neg]
  rintro (h | h | h) <;> contradiction

theorem mu_exampleScore :
    ((List.range 256).map fun (i : Nat) => (i : ℚ) * (hist exampleScore i : ℚ)).sum = 211 := by
  have hz : ∀ (a n : Nat), (∀ i ∈ List.range' a n, i ≠ 1 ∧ i ≠ 10 ∧ i ≠ 200) →
      ((List.range' a n).map fun (i : Nat) => (i : ℚ) * (hist exampleScore i : ℚ)).sum = 0 := by
    intro a n h
    apply sum_map_eq_zero
    intro i hi
    obtain ⟨h1, h2, h3⟩ := h i hi
    rw [hist_exampleScore_zero i h1 h2 h3]
    simp
  rw [range_split]
  simp only [List.map_append, List.sum_append, List.map_cons, List.sum_cons]
  rw [hz 2 8 (fun i hi => by simp [List.mem_range'] at hi; omega),
    hz 11 189 (fun i hi => by simp [List.mem_range'] at hi; omega),
    hz 201 55 (fun i hi => by simp [List.mem_range'] at hi; omega)]
  simp only [hist_exampleScore]
  norm_num


theorem otsu_s0 : otsuStep exampleScore (211 / 3) (1 / 3)
    { mu1 := 0, q1 := 0, max_sigma := 0, max_val := 0 } 0
    = { mu1 := 0, q1 := 0, max_sigma := 0, max_val := 0 } := by
  simp only [otsuStep, hist_exampleScore]
  norm_num [FLT_EPSILON]

theorem otsu_s1 : otsuStep exampleScore (211 / 3) (1 / 3)
    { mu1 := 0, q1 := 0, max_sigma := 0, max_val := 0 } 1
    = { mu1 := 1, q1 := 1 / 3, max_sigma := 21632 / 9, max_val := 1 } := by
  simp only [otsuStep, hist_exampleScore]
  norm_num [FLT_EPSILON]

theorem otsu_z1 (i : Nat) (hi : i ∈ List.range' 2 8) : otsuStep exampleScore (211 / 3) (1 / 3)
    { mu1 := 1, q1 := 1 / 3, max_sigma := 21632 / 9, max_val := 1 } i
    = { mu1 := 1, q1 := 1 / 3, max_sigma := 21632 / 9, max_val := 1 } := by
  have hi' : i ≠ 1 ∧ i ≠ 10 ∧ i ≠ 200 := by simp [List.mem_range'] at hi; omega
  simp only [otsuStep, hist_exampleScore_zero i hi'.1 hi'.2.1 hi'.2.2]
  norm_num [FLT_EPSILON]

theorem otsu_s10 : otsuStep exampleScore (211 / 3) (1 / 3)
    { mu1 := 1, q1 := 1 / 3, max_sigma := 21632 / 9, max_val := 1 } 10
    = { mu1 := 11 / 2, q1 := 2 / 3, max_sigma := 151321 / 18, max_val := 10 } := by
  simp only [otsuStep, hist_exampleScore]
  norm_num [FLT_EPSILON]

theorem otsu_z2 (i : Nat) (hi : i ∈ List.range' 11 189) :
    otsuStep exampleScore (211 / 3) (1 / 3)
      { mu1 := 11 / 2, q1 := 2 / 3, max_sigma := 151321 / 18, max_val := 10 } i
    = { mu1 := 11 / 2, q1 := 2 / 3, max_sigma := 151321 / 18, max_val := 10 } := by
  have hi' : i ≠ 1 ∧ i ≠ 10 ∧ i ≠ 200 := by simp [List.mem_range'] at hi; omega
  simp only [otsuStep, hist_exampleScore_zero i hi'.1 hi'.2.1 hi'.2.2]
  norm_num [FLT_EPSILON]

theorem otsu_s200 : otsuStep exampleScore (211 / 3) (1 / 3)
    { mu1 := 11 / 2, q1 := 2 / 3, max_sigma := 151321 / 18, max_val := 10 } 200
    = { mu1 := 11 / 3, q1 := 1, max_sigma := 151321 / 18, max_val := 10 } := by
  simp only [otsuStep, hist_exampleScore]
  norm_num [FLT_EPSILON]

theorem otsu_z3 (i : Nat) (hi : i ∈ List.range' 201 55) :
    otsuStep exampleScore (211 / 3) (1 / 3)
      { mu1 := 11 / 3, q1 := 1, max_sigma := 151321 / 18, max_val := 10 } i
    = { mu1 := 11 / 3, q1 := 1, max_sigma := 151321 / 18, max_val := 10 } := by
  have hi' : i ≠ 1 ∧ i ≠ 10 ∧ i ≠ 200 := by simp [List.mem_range'] at hi; omega
  simp only [otsuStep, hist_exampleScore_zero i hi'.1 hi'.2.1 hi'.2.2]
  norm_num [FLT_EPSILON]

theorem otsuLoop_exampleScore :
    otsuLoop exampleScore (211 / 3) (1 / 3) (List.range 256)
      { mu1 := 0, q1 := 0, max_sigma := 0, max_val := 0 } = 10 := by
  rw [range_split, otsuLoop_cons, otsu_s0, otsuLoop_cons, otsu_s1, otsuLoop_append,
    foldl_otsuStep_stable _ _ _ _ _ otsu_z1, otsuLoop_cons, otsu_s10, otsuLoop_append,
    foldl_otsuStep_stable _ _ _ _ _ otsu_z2, otsuLoop_cons, otsu_s200,
    otsuLoop_stable _ _ _ _ _ otsu_z3]

theorem getThreshVal_Otsu_8u_eq (src : Mat) :
    getThreshVal_Otsu_8u src =
      otsuLoop src
        (((List.range 256).map fun (i : Nat) => (i : ℚ) * (hist src i : ℚ)).sum
          * (1 / ((src.cols * src.rows : Nat) : ℚ)))
        (1 / ((src.cols * src.rows : Nat) : ℚ)) (List.range 256)
        { mu1 := 0, q1 := 0, max_sigma := 0, max_val := 0 } := by
  rw [getThreshVal_Otsu_8u]

theorem thresholdOtsu_fst (src : Mat) :
    (thresholdOtsu src).1 = getThreshVal_Otsu_8u src := by
  simp only [thresholdOtsu]

theorem otsu_exampleScore : getThreshVal_Otsu_8u exampleScore = 10 := by
  have hscale : (1 / ((exampleScore.cols * exampleScore.rows : Nat) : ℚ)) = 1 / 3 := by
    norm_num [exampleScore]
  rw [getThreshVal_Otsu_8u_eq, mu_exampleScore, hscale]
  have hmu : (211 : ℚ) * (1 / 3) = 211 / 3 := by norm_num
  rw [hmu]
  exact otsuLoop_exampleScore

/-- Counterexample to C17 as stated: for the score image 1, 10, 200 the automatic threshold
is 10; at the pixel with score 1 the image handed to the second automatic threshold is 1,
neither 0 nor 255, where the union of the coarse and the half-threshold mask is 0. -/
theorem adaptiveUnion_not_mask_union :
    (thresholdOtsu exampleScore).1 = 10 ∧ exampleScore.px 0 0 = 1 ∧
    (adaptiveUnion exampleScore).px 0 0 = 1 ∧ (unionOfMasks exampleScore).px 0 0 = 0 := by
  have ht : (thresholdOtsu exampleScore).1 = 10 :=
    (thresholdOtsu_fst exampleScore).trans otsu_exampleScore
  have hp : exampleScore.px 0 0 = 1 := rfl
  have h8 : exampleScore.px 0 0 ≤ 255 := by rw [hp]; norm_num
  refine ⟨ht, hp, ?_, ?_⟩
  · rw [adaptiveUnion_px_eq exampleScore 0 0 h8, ht, hp]
    norm_num
  · rw [unionOfMasks_px_eq exampleScore 0 0, ht, hp]
    norm_num

end Scene3D
